import Mathlib

/-!
# Elastos.ELA `node/node.go`: per-peer state, sync flag, request ledger, relay

A shallow embedding of the functions of `node/node.go` and theorems about them.

Conventions of the embedding:
* `uint64` / `uint32` / `uint16` values are natural numbers; the one place where
  the source does arithmetic on them (`node.txnCnt++`, `node.rxTxnCnt++`) reduces
  modulo `2 ^ 64` explicitly.
* the `uint8` sync flag is a `Fin 256`, whose `|||` and `&&&` are the bitwise
  operations on the underlying number reduced modulo 256.
* a Go `map[K]V` value (`GoMap`) is the nil map or a map made by `make`, with its entries as
  an association list. It is read with `GoMap.get?` and `GoMap.delete`, which take the nil map
  as empty, and written with `GoMap.set`, which panics on the nil map. `NewNode` leaves the
  two maps of a node nil; `InitLocalNode`, `ConnectingNodes.init` and `ResetRequestedBlock`
  make them.
* a call that panics returns `none`.
* locks are not modelled: every function below is the body that runs under its lock.
* `time.Now()` is an explicit clock argument.
-/

namespace Node

/-! ## Go maps -/

/-- The entries of a map made by `make`, as an association list of key and value pairs. -/
abbrev Entries (κ ν : Type) := List (κ × ν)

namespace Entries

variable {κ ν : Type} [DecidableEq κ]

/-- The value stored for a key, if there is one. -/
def get? : Entries κ ν → κ → Option ν
  | [], _ => none
  | (k', v) :: rest, k => if k' = k then some v else get? rest k

/-- Whether there is an entry for the key. -/
def contains (m : Entries κ ν) (k : κ) : Bool := (get? m k).isSome

/-- The entries without those of the key. -/
def delete (m : Entries κ ν) (k : κ) : Entries κ ν := m.filter (fun e => !decide (e.1 = k))

/-- The entries with the entry of `k` replaced where it stands, or added. -/
def set : Entries κ ν → κ → ν → Entries κ ν
  | [], k, v => [(k, v)]
  | (k', v') :: rest, k, v => if k' = k then (k, v) :: rest else (k', v') :: set rest k v

/-- The keys, in the order of the association list. -/
def keys (m : Entries κ ν) : List κ := m.map Prod.fst

end Entries

/-- A Go value of type `map[K]V`: the nil map, which is the zero value, or a map made by
`make`, with its entries. -/
inductive GoMap (κ ν : Type) where
  | nil
  | made (entries : Entries κ ν)
  deriving DecidableEq, Repr

namespace GoMap

variable {κ ν : Type} [DecidableEq κ]

/-- The result of `make(map[K]V)`: an empty map that can be written to. -/
def empty : GoMap κ ν := made []

/-- The entries of the map; the nil map has none. -/
def entries : GoMap κ ν → Entries κ ν
  | nil => []
  | made es => es

/-- The read `v, ok := m[k]`: `some v` when `ok`, `none` otherwise. Reading the nil map is
allowed and finds nothing. -/
def get? (m : GoMap κ ν) (k : κ) : Option ν := Entries.get? m.entries k

/-- The `ok` of `_, ok := m[k]`. -/
def contains (m : GoMap κ ν) (k : κ) : Bool := (get? m k).isSome

/-- The builtin `delete(m, k)`: no entry for `k` is left; a no-op when `k` is absent, and on
the nil map. -/
def delete : GoMap κ ν → κ → GoMap κ ν
  | nil, _ => nil
  | made es, k => made (Entries.delete es k)

/-- The assignment `m[k] = v`: the entry of `k` is replaced where it stands, or added. On the
nil map it panics ("assignment to entry in nil map"): `none`. -/
def set : GoMap κ ν → κ → ν → Option (GoMap κ ν)
  | nil, _, _ => none
  | made es, k, v => some (made (Entries.set es k v))

/-- The keys of the map, in the order of the association list. -/
def keys (m : GoMap κ ν) : List κ := Entries.keys m.entries

end GoMap

/-! ## Height comparison -/

/-- The function `CompareHeight` (node.go 394-401): `-1` as soon as one neighbour height is
above the local one, `1` when the loop runs to its end. -/
def CompareHeight (localHeight : Nat) : List Nat → Int
  | [] => 1
  | height :: heights => if localHeight < height then -1 else CompareHeight localHeight heights

/-! ## ConnectingNodes -/

/-- The struct `ConnectingNodes` (node.go 75-78): the set of addresses being dialled, a
`map[string]struct{}`. -/
structure ConnectingNodes where
  List : GoMap String Unit
  deriving DecidableEq, Repr

namespace ConnectingNodes

/-- The method `ConnectingNodes.init` (node.go 80-82). -/
def init (_cn : ConnectingNodes) : ConnectingNodes := { List := GoMap.empty }

/-- The method `ConnectingNodes.add` (node.go 84-92): the returned flag and the registry
after the call; `none` when the assignment of line 89 panics, which it does on a registry
whose `List` is nil. -/
def add (cn : ConnectingNodes) (addr : String) : Option (Bool × ConnectingNodes) :=
  let ok := GoMap.contains cn.List addr
  if !ok then
    match GoMap.set cn.List addr () with
    | none => none
    | some l => some (!ok, { cn with List := l })
  else some (!ok, cn)

/-- The method `ConnectingNodes.del` (node.go 94-98). -/
def del (cn : ConnectingNodes) (addr : String) : ConnectingNodes :=
  { cn with List := GoMap.delete cn.List addr }

end ConnectingNodes

/-- A call on the registry of connecting nodes. -/
inductive ConnectingCall where
  | add (addr : String)
  | del (addr : String)
  deriving DecidableEq, Repr

/-- Runs a sequence of calls from a registry state and collects, in order, what the calls
`add a` for the watched address `a` returned; `none` when a call of the sequence panics. -/
def addResults (a : String) : ConnectingNodes → List ConnectingCall → Option (List Bool)
  | _, [] => some []
  | cn, ConnectingCall.add addr :: rest =>
    match cn.add addr with
    | none => none
    | some (r, cn') =>
      (addResults a cn' rest).map (fun rs => if addr = a then r :: rs else rs)
  | cn, ConnectingCall.del addr :: rest => addResults a (cn.del addr) rest

/-! ## Collaborators of the node -/

/-- The type `Uint256` of the common package: a 32-byte hash. -/
abbrev Uint256 := Fin (2 ^ 256)

/-- An instant of `time.Time`, as a clock reading. -/
abbrev Time := Nat

/-- The word size of the `uint64` counters. -/
def uint64Mod : Nat := 2 ^ 64

/-- The inventory types `msg.InvTypeTx` and `msg.InvTypeBlock`. -/
inductive InvType where
  | InvTypeTx
  | InvTypeBlock
  deriving DecidableEq, Repr

/-- The value of `msg.NewInvVect(typ, &hash)`. -/
structure InvVect where
  Typ : InvType
  Hash : Uint256
  deriving DecidableEq, Repr

/-- The messages `Relay` builds: `msg.NewInventory()` with the vectors added by
`AddInvVect`, `msg.NewTx(t)` and `msg.NewBlock(b)`. -/
inductive WireMsg (Tx Blk : Type) where
  | Inventory (InvList : List InvVect)
  | Tx (t : Tx)
  | Block (b : Blk)
  deriving DecidableEq, Repr

/-- The dynamic type of the `message interface{}` argument of `Relay`: a `*Transaction` or a
`*Block` (pointing to a transaction, to a block), or a value of any other type, nil included
(told apart by a tag). -/
inductive Message (Tx Blk : Type) where
  | Transaction (t : Tx)
  | Block (b : Blk)
  | Other (tag : Nat)
  deriving DecidableEq, Repr

/-- What `node.go` uses of the packages `core` and `bloom`, taken as parameters: the hash of a
transaction and of a block, and of a bloom filter `IsLoaded`, `MatchTxAndUpdate` (the answer
and the filter after the call) and `Reload`. -/
structure Collab (Tx Blk F L : Type) where
  txHash : Tx → Uint256
  blockHash : Blk → Uint256
  IsLoaded : F → Bool
  MatchTxAndUpdate : F → Tx → Bool × F
  Reload : F → L → F

/-! ## The admission gate -/

/-- The type `Semaphore` (node.go 30), a buffered `chan struct{}`: its capacity and the number
of values queued in it, which is the number of permits held. -/
structure Semaphore where
  cap : Nat
  held : Nat
  deriving DecidableEq, Repr

/-- The function `MakeSemaphore` (node.go 32-34): `make(chan struct{}, n)`, an empty channel
of capacity `n`. -/
def MakeSemaphore (n : Nat) : Semaphore := { cap := n, held := 0 }

namespace Semaphore

/-- The method `acquire` (node.go 36), the send `s <- struct{}{}`: it completes when the
buffer has room; `none` stands for a send that blocks. -/
def acquire (s : Semaphore) : Option Semaphore :=
  if s.held < s.cap then some { s with held := s.held + 1 } else none

/-- The method `release` (node.go 37), the receive `<-s`: it completes when a value is
queued; `none` stands for a receive that blocks. -/
def release (s : Semaphore) : Option Semaphore :=
  if 0 < s.held then some { s with held := s.held - 1 } else none

end Semaphore

/-! ## The node -/

/-- The struct `node` (node.go 39-73), with the fields this file reads or writes. Of the
embedded `link`, declared outside this file, it has `addr`, `port`, `httpInfoPort`,
`lastActive`, and `sent`: the messages handed to `Send`, oldest first. -/
structure node (Tx Blk F : Type) where
  id : Nat
  version : Nat
  services : Nat
  relay : Bool
  height : Nat
  external : Bool
  txnCnt : Nat
  rxTxnCnt : Nat
  addr : String
  port : Nat
  httpInfoPort : Nat
  lastActive : Time
  sent : List (WireMsg Tx Blk)
  filter : F
  syncFlag : Fin 256
  ConnectingNodes : ConnectingNodes
  DefaultMaxPeers : Nat
  headerFirstMode : Bool
  RequestedBlockList : GoMap Uint256 Time
  SyncBlkReqSem : Semaphore
  StartHash : Uint256
  StopHash : Uint256
  deriving DecidableEq, Repr

namespace node

variable {Tx Blk F L : Type}

/-- The function `NewNode` (node.go 100-107): a zero-valued node whose filter is the value of
`bloom.LoadFilter(nil)`, passed as `filter`. Its two maps are nil. -/
def NewNode (filter : F) : node Tx Blk F :=
  { id := 0, version := 0, services := 0, relay := false, height := 0, external := false,
    txnCnt := 0, rxTxnCnt := 0, addr := "", port := 0, httpInfoPort := 0, lastActive := 0,
    sent := [], filter := filter, syncFlag := 0, ConnectingNodes := { List := GoMap.nil },
    DefaultMaxPeers := 0, headerFirstMode := false, RequestedBlockList := GoMap.nil,
    SyncBlkReqSem := MakeSemaphore 0, StartHash := 0, StopHash := 0 }

/-- The function `InitLocalNode` (node.go 109-138), as far as it sets fields of the node: the
configuration values and the id drawn from the clock are arguments. -/
def InitLocalNode (filter : F) (ProtocolVersion MaxSyncHdrReq NodePort : Nat)
    (OpenServiceEnabled : Bool) (OpenService : Nat) (idFromClock : Nat) : node Tx Blk F :=
  let n : node Tx Blk F := NewNode filter
  { n with
    version := ProtocolVersion
    SyncBlkReqSem := MakeSemaphore MaxSyncHdrReq
    port := NodePort
    services := if OpenServiceEnabled then (n.services + OpenService) % uint64Mod else n.services
    relay := true
    id := idFromClock
    ConnectingNodes := n.ConnectingNodes.init
    RequestedBlockList := GoMap.empty }

/-- The method `AddToConnectingList` (node.go 156-158); `none` when `add` panics. -/
def AddToConnectingList (n : node Tx Blk F) (addr : String) : Option (Bool × node Tx Blk F) :=
  (n.ConnectingNodes.add addr).map (fun r => (r.1, { n with ConnectingNodes := r.2 }))

/-- The method `RemoveFromConnectingList` (node.go 160-162). -/
def RemoveFromConnectingList (n : node Tx Blk F) (addr : String) : node Tx Blk F :=
  { n with ConnectingNodes := n.ConnectingNodes.del addr }

/-- The method `UpdateInfo` (node.go 164-178). -/
def UpdateInfo (n : node Tx Blk F) (t : Time) (version services port nonce relay height : Nat) :
    node Tx Blk F :=
  { n with
    lastActive := t
    id := nonce
    version := version
    services := services
    port := port
    relay := if relay = 0 then false else true
    height := height }

/-- The method `ID` (node.go 192-194). -/
def ID (n : node Tx Blk F) : Nat := n.id

/-- The method `Port` (node.go 200-202). -/
def Port (n : node Tx Blk F) : Nat := n.port

/-- The method `SetHttpInfoPort` (node.go 212-214). -/
def SetHttpInfoPort (n : node Tx Blk F) (nodeInfoPort : Nat) : node Tx Blk F :=
  { n with httpInfoPort := nodeInfoPort }

/-- The method `IsRelay` (node.go 216-218). -/
def IsRelay (n : node Tx Blk F) : Bool := n.relay

/-- The method `IncRxTxnCnt` (node.go 228-230). -/
def IncRxTxnCnt (n : node Tx Blk F) : node Tx Blk F :=
  { n with rxTxnCnt := (n.rxTxnCnt + 1) % uint64Mod }

/-- The method `GetTxnCnt` (node.go 232-234). -/
def GetTxnCnt (n : node Tx Blk F) : Nat := n.txnCnt

/-- The method `Height` (node.go 240-242). -/
def Height (n : node Tx Blk F) : Nat := n.height

/-- The method `SetHeight` (node.go 244-246). -/
def SetHeight (n : node Tx Blk F) (height : Nat) : node Tx Blk F := { n with height := height }

/-- The method `LoadFilter` (node.go 313-315). -/
def LoadFilter (c : Collab Tx Blk F L) (n : node Tx Blk F) (filter : L) : node Tx Blk F :=
  { n with filter := c.Reload n.filter filter }

/-- The method `BloomFilter` (node.go 317-319). -/
def BloomFilter (n : node Tx Blk F) : F := n.filter

/-- Modelled from the spec: the transport's `send(peer, message)`, the method `Send` of the
embedded `link`, which is declared outside this file. The message joins the peer's outgoing
traffic; nothing else of the peer changes. -/
def Send (n : node Tx Blk F) (m : WireMsg Tx Blk) : node Tx Blk F :=
  { n with sent := n.sent ++ [m] }

/-- The method `IsSyncHeaders` (node.go 368-376). -/
def IsSyncHeaders (n : node Tx Blk F) : Bool :=
  if (n.syncFlag &&& 0x01) = 0x01 then true else false

/-- The method `SetSyncHeaders` (node.go 378-386). -/
def SetSyncHeaders (n : node Tx Blk F) (b : Bool) : node Tx Blk F :=
  if b = true then { n with syncFlag := n.syncFlag ||| 0x01 }
  else { n with syncFlag := n.syncFlag &&& 0xFE }

/-- The method `needSync` (node.go 388-392); the chain height and the neighbour heights it
reads are arguments. -/
def needSync (BlockHeight : Nat) (heights : List Nat) : Bool :=
  decide (CompareHeight BlockHeight heights < 0)

/-- The method `GetRequestBlockList` (node.go 403-405). -/
def GetRequestBlockList (n : node Tx Blk F) : GoMap Uint256 Time := n.RequestedBlockList

/-- The method `IsRequestedBlock` (node.go 407-412). -/
def IsRequestedBlock (n : node Tx Blk F) (hash : Uint256) : Bool :=
  GoMap.contains n.RequestedBlockList hash

/-- The method `AddRequestedBlock` (node.go 414-418); `now` is the value of `time.Now()`.
`none` when the assignment of line 417 panics, which it does on a nil `RequestedBlockList`. -/
def AddRequestedBlock (n : node Tx Blk F) (hash : Uint256) (now : Time) :
    Option (node Tx Blk F) :=
  (GoMap.set n.RequestedBlockList hash now).map (fun l => { n with RequestedBlockList := l })

/-- The method `ResetRequestedBlock` (node.go 420-425). -/
def ResetRequestedBlock (n : node Tx Blk F) : node Tx Blk F :=
  { n with RequestedBlockList := GoMap.empty }

/-- The method `DeleteRequestedBlock` (node.go 427-435). -/
def DeleteRequestedBlock (n : node Tx Blk F) (hash : Uint256) : node Tx Blk F :=
  let ok := GoMap.contains n.RequestedBlockList hash
  if ok = false then n
  else { n with RequestedBlockList := GoMap.delete n.RequestedBlockList hash }

/-- The method `AcqSyncBlkReqSem` (node.go 437-439); `none` while the call blocks. -/
def AcqSyncBlkReqSem (n : node Tx Blk F) : Option (node Tx Blk F) :=
  (n.SyncBlkReqSem.acquire).map (fun s => { n with SyncBlkReqSem := s })

/-- The method `RelSyncBlkReqSem` (node.go 441-443); `none` while the call blocks. -/
def RelSyncBlkReqSem (n : node Tx Blk F) : Option (node Tx Blk F) :=
  (n.SyncBlkReqSem.release).map (fun s => { n with SyncBlkReqSem := s })

/-- The method `SetStartHash` (node.go 445-447). -/
def SetStartHash (n : node Tx Blk F) (hash : Uint256) : node Tx Blk F :=
  { n with StartHash := hash }

/-- The method `SetStopHash` (node.go 453-455). -/
def SetStopHash (n : node Tx Blk F) (hash : Uint256) : node Tx Blk F :=
  { n with StopHash := hash }

end node

/-! ## Waiting for the end of the synchronisation -/

namespace node

variable {Tx Blk F L : Type}

/-- The `for` loop of `WaitForSyncFinish` (node.go 277-290) over the observations its polls
make, each the chain height and the neighbour heights read at that poll. The result is the
number of polls made and `LocalNode` after the call; `none` when the loop is still polling
after the last observation given. `k` is the number of polls made so far. -/
def waitLoop (LocalNode : node Tx Blk F) : List (Nat × List Nat) → Nat → Option (Nat × node Tx Blk F)
  | [], _ => none
  | (BlockHeight, heights) :: rest, k =>
    if CompareHeight BlockHeight heights > 0 then some (k + 1, LocalNode.SetSyncHeaders false)
    else waitLoop LocalNode rest (k + 1)

/-- The method `WaitForSyncFinish` (node.go 273-291); `seedListLen` is
`len(Parameters.SeedList)`. -/
def WaitForSyncFinish (seedListLen : Nat) (polls : List (Nat × List Nat))
    (LocalNode : node Tx Blk F) : Option (Nat × node Tx Blk F) :=
  if seedListLen ≤ 0 then some (0, LocalNode) else waitLoop LocalNode polls 0

/-! ## Relay -/

/-- The result of a call of `Relay`: the returned error (`none` for `nil`), the receiver after
the call, and the neighbours after the call, in the order of `GetNeighborNodes()`. -/
structure RelayResult (Tx Blk F : Type) where
  err : Option String
  self : node Tx Blk F
  nbrs : List (node Tx Blk F)
  deriving DecidableEq, Repr

/-- The type switch of `Relay` (node.go 330-361) for one neighbour `nbr` that passed the test
of line 328: the receiver and the neighbour after it, or the error the `default` case
returns. In the transaction case `MatchTxAndUpdate` runs only on a loaded filter, and leaves
its update in the neighbour's filter whether or not it matched. -/
def relayNbr (c : Collab Tx Blk F L) (message : Message Tx Blk) (self nbr : node Tx Blk F) :
    Except String (node Tx Blk F × node Tx Blk F) :=
  match message with
  | Message.Transaction t =>
    let loaded := c.IsLoaded nbr.BloomFilter
    let matched := loaded && (c.MatchTxAndUpdate nbr.BloomFilter t).1
    let nbr₁ := if loaded then { nbr with filter := (c.MatchTxAndUpdate nbr.BloomFilter t).2 } else nbr
    if matched then
      Except.ok (self, nbr₁.Send (WireMsg.Inventory [⟨InvType.InvTypeTx, c.txHash t⟩]))
    else if nbr₁.IsRelay then
      Except.ok ({ self with txnCnt := (self.txnCnt + 1) % uint64Mod }, nbr₁.Send (WireMsg.Tx t))
    else Except.ok (self, nbr₁)
  | Message.Block b =>
    if c.IsLoaded nbr.BloomFilter then
      Except.ok (self, nbr.Send (WireMsg.Inventory [⟨InvType.InvTypeBlock, c.blockHash b⟩]))
    else if nbr.IsRelay then
      Except.ok (self, nbr.Send (WireMsg.Block b))
    else Except.ok (self, nbr)
  | Message.Other _ => Except.error "unknown relay message type"

/-- The test `from == nil || nbr.ID() != from.ID()` (node.go 328). -/
def notOriginator (from' : Option (node Tx Blk F)) (nbr : node Tx Blk F) : Bool :=
  match from' with
  | none => true
  | some f => nbr.ID != f.ID

/-- The loop of `Relay` over the neighbours (node.go 327-363). An error ends the call where
it arises: the neighbours not yet reached are left as they are. -/
def relayLoop (c : Collab Tx Blk F L) (from' : Option (node Tx Blk F)) (message : Message Tx Blk) :
    node Tx Blk F → List (node Tx Blk F) → RelayResult Tx Blk F
  | self, [] => ⟨none, self, []⟩
  | self, nbr :: rest =>
    if notOriginator from' nbr then
      match relayNbr c message self nbr with
      | Except.error e => ⟨some e, self, nbr :: rest⟩
      | Except.ok (self', nbr') =>
        let r := relayLoop c from' message self' rest
        ⟨r.err, r.self, nbr' :: r.nbrs⟩
    else
      let r := relayLoop c from' message self rest
      ⟨r.err, r.self, nbr :: r.nbrs⟩

/-- The neighbour as the type switch of `Relay` leaves it: the second component of
`relayNbr`, which does not depend on the receiver, and the neighbour itself when the switch
returns the error. -/
def relayNbrTarget (c : Collab Tx Blk F L) (message : Message Tx Blk) (nbr : node Tx Blk F) :
    node Tx Blk F :=
  match relayNbr c message nbr nbr with
  | Except.ok (_, nbr') => nbr'
  | Except.error _ => nbr

/-- The test `from != nil && LocalNode.IsSyncHeaders()` (node.go 323). -/
def relaySuppressed (LocalNode : node Tx Blk F) (from' : Option (node Tx Blk F)) : Bool :=
  from'.isSome && LocalNode.IsSyncHeaders

/-- The method `Relay` (node.go 321-366). `LocalNode` is the package variable of that name,
`self` the receiver, `nbrs` the value of `node.GetNeighborNodes()`; the neighbours are
objects distinct from each other and from the receiver. -/
def Relay (c : Collab Tx Blk F L) (LocalNode self : node Tx Blk F) (from' : Option (node Tx Blk F))
    (message : Message Tx Blk) (nbrs : List (node Tx Blk F)) : RelayResult Tx Blk F :=
  if relaySuppressed LocalNode from' then ⟨none, self, nbrs⟩
  else relayLoop c from' message self nbrs

end node

/-! ## The operations of a node -/

/-- The calls of this file that write to a node by code of this file, with their arguments.
`Relay` carries the package variable `LocalNode` and the neighbour list it reads;
`WaitForSyncFinish` is taken on the node that is `LocalNode`, the one it writes to. `Start`,
`UpdateMsgHelper` and `NodeDisconnect` are left out: what they write, they write through
functions declared outside this file. -/
inductive NodeOp (Tx Blk F L : Type) where
  | AddToConnectingList (addr : String)
  | RemoveFromConnectingList (addr : String)
  | UpdateInfo (t : Time) (version services port nonce relay height : Nat)
  | SetHttpInfoPort (nodeInfoPort : Nat)
  | IncRxTxnCnt
  | SetHeight (height : Nat)
  | WaitForSyncFinish (seedListLen : Nat) (polls : List (Nat × List Nat))
  | LoadFilter (filter : L)
  | Relay (LocalNode : node Tx Blk F) (from' : Option (node Tx Blk F))
      (message : Message Tx Blk) (nbrs : List (node Tx Blk F))
  | SetSyncHeaders (b : Bool)
  | AddRequestedBlock (hash : Uint256) (now : Time)
  | ResetRequestedBlock
  | DeleteRequestedBlock (hash : Uint256)
  | AcqSyncBlkReqSem
  | RelSyncBlkReqSem
  | SetStartHash (hash : Uint256)
  | SetStopHash (hash : Uint256)

namespace NodeOp

variable {Tx Blk F L : Type}

/-- The node after a call; a call that blocks, panics or has not returned leaves it as it
was. -/
def apply (c : Collab Tx Blk F L) (n : node Tx Blk F) : NodeOp Tx Blk F L → node Tx Blk F
  | AddToConnectingList addr =>
    match n.AddToConnectingList addr with
    | some (_, n') => n'
    | none => n
  | RemoveFromConnectingList addr => n.RemoveFromConnectingList addr
  | UpdateInfo t version services port nonce relay height =>
    n.UpdateInfo t version services port nonce relay height
  | SetHttpInfoPort nodeInfoPort => n.SetHttpInfoPort nodeInfoPort
  | IncRxTxnCnt => n.IncRxTxnCnt
  | SetHeight height => n.SetHeight height
  | WaitForSyncFinish seedListLen polls =>
    match node.WaitForSyncFinish seedListLen polls n with
    | some (_, n') => n'
    | none => n
  | LoadFilter filter => n.LoadFilter c filter
  | Relay LocalNode from' message nbrs => (node.Relay c LocalNode n from' message nbrs).self
  | SetSyncHeaders b => n.SetSyncHeaders b
  | AddRequestedBlock hash now => (n.AddRequestedBlock hash now).getD n
  | ResetRequestedBlock => n.ResetRequestedBlock
  | DeleteRequestedBlock hash => n.DeleteRequestedBlock hash
  | AcqSyncBlkReqSem => (n.AcqSyncBlkReqSem).getD n
  | RelSyncBlkReqSem => (n.RelSyncBlkReqSem).getD n
  | SetStartHash hash => n.SetStartHash hash
  | SetStopHash hash => n.SetStopHash hash

/-- Whether the call is an `UpdateInfo`, and then its nonce. -/
def updateInfoNonce : NodeOp Tx Blk F L → Option Nat
  | UpdateInfo _ _ _ _ nonce _ _ => some nonce
  | _ => none

end NodeOp

/-! ## Sequences of calls -/

namespace NodeOp

variable {Tx Blk F L : Type}

/-- The node after a sequence of calls, the first call of the list first. -/
def run (c : Collab Tx Blk F L) : node Tx Blk F → List (NodeOp Tx Blk F L) → node Tx Blk F
  | n, [] => n
  | n, op :: ops => run c (op.apply c n) ops

end NodeOp

namespace Semaphore

/-- One step of the gate, from the number of permits held to the next: an `acquire` that
completes or a `release` that completes. A call that blocks makes no step. -/
inductive Step : Semaphore → Semaphore → Prop where
  | acquire {s s' : Semaphore} : s.acquire = some s' → Step s s'
  | release {s s' : Semaphore} : s.release = some s' → Step s s'

/-- The gates that steps reach from the gate `MakeSemaphore N` makes. -/
inductive Reachable (N : Nat) : Semaphore → Prop where
  | init : Reachable N (MakeSemaphore N)
  | step {s s' : Semaphore} : Reachable N s → Step s s' → Reachable N s'

end Semaphore

/-! ## Counting the full transactions sent -/

/-- Whether a message is a full transaction, `msg.NewTx(t)`. -/
def WireMsg.isTx {Tx Blk : Type} : WireMsg Tx Blk → Bool
  | WireMsg.Tx _ => true
  | _ => false

/-- The number of neighbours that were sent a full transaction in a call, from the neighbour
list before and after it: the pairs in which the traffic added by the call holds a full
transaction. -/
def fullTxCount {Tx Blk F : Type} (before after : List (node Tx Blk F)) : Nat :=
  (before.zip after).countP (fun p => (p.2.sent.drop p.1.sent.length).any WireMsg.isTx)

/-! ## A concrete instance, for the examples -/

/-- A small filter: whether it is loaded, and the transactions it matches. -/
structure ToyFilter where
  loaded : Bool
  watched : List Nat
  deriving DecidableEq, Repr

/-- Collaborators over numbered transactions and blocks: the hash of transaction `t` is
`t + 1000`, of block `b` is `b + 2000`; a match adds the next transaction number to the
filter. -/
def toyCollab : Collab Nat Nat ToyFilter (List Nat) where
  txHash := fun t => ⟨(t + 1000) % 2 ^ 256, Nat.mod_lt _ (Nat.two_pow_pos 256)⟩
  blockHash := fun b => ⟨(b + 2000) % 2 ^ 256, Nat.mod_lt _ (Nat.two_pow_pos 256)⟩
  IsLoaded := fun f => f.loaded
  MatchTxAndUpdate := fun f t =>
    if f.watched.contains t then (true, { f with watched := (t + 1) :: f.watched }) else (false, f)
  Reload := fun _ spec => { loaded := true, watched := spec }

/-- A peer with the given id, relay flag and filter, and zero elsewhere. -/
def toyPeer (id : Nat) (relay : Bool) (filter : ToyFilter) : node Nat Nat ToyFilter :=
  { (node.NewNode filter : node Nat Nat ToyFilter) with id := id, relay := relay }

/-- The local node of the examples, with the given sync flag. -/
def toyLocal (syncFlag : Fin 256) : node Nat Nat ToyFilter :=
  { (node.InitLocalNode ⟨false, []⟩ 1 16 20338 true 4 99 : node Nat Nat ToyFilter) with
    syncFlag := syncFlag }

/-! ## Lemmas on Go maps -/

namespace Entries

variable {κ ν : Type} [DecidableEq κ]

theorem assoc_get?_set_self (m : Entries κ ν) (k : κ) (v : ν) : get? (set m k v) k = some v := by
  induction m with
  | nil => simp [set, get?]
  | cons e rest ih =>
    obtain ⟨k', v'⟩ := e
    by_cases h : k' = k
    · simp [set, get?, h]
    · simp [set, get?, h, ih]

theorem assoc_get?_set_other (m : Entries κ ν) (k k₂ : κ) (v : ν) (h : k ≠ k₂) :
    get? (set m k v) k₂ = get? m k₂ := by
  induction m with
  | nil => simp [set, get?, h]
  | cons e rest ih =>
    obtain ⟨k', v'⟩ := e
    by_cases h₁ : k' = k
    · subst h₁
      simp [set, get?, h]
    · by_cases h₂ : k' = k₂
      · subst h₂
        simp [set, get?, h₁]
      · simp [set, get?, h₁, h₂, ih]

theorem assoc_get?_delete_self (m : Entries κ ν) (k : κ) : get? (delete m k) k = none := by
  induction m with
  | nil => simp [delete, get?]
  | cons e rest ih =>
    obtain ⟨k', v'⟩ := e
    by_cases h : k' = k
    · simpa [delete, List.filter_cons, h] using ih
    · simpa [delete, List.filter_cons, h, get?] using ih

theorem assoc_get?_delete_other (m : Entries κ ν) (k k₂ : κ) (h : k ≠ k₂) :
    get? (delete m k) k₂ = get? m k₂ := by
  induction m with
  | nil => simp [delete, get?]
  | cons e rest ih =>
    obtain ⟨k', v'⟩ := e
    by_cases h₁ : k' = k
    · subst h₁
      simpa [delete, List.filter_cons, get?, h] using ih
    · by_cases h₂ : k' = k₂
      · subst h₂
        simp [delete, List.filter_cons, get?, h₁]
      · simpa [delete, List.filter_cons, get?, h₁, h₂] using ih

theorem assoc_contains_set_self (m : Entries κ ν) (k : κ) (v : ν) : contains (set m k v) k = true := by
  simp [contains, assoc_get?_set_self]

theorem assoc_contains_set_other (m : Entries κ ν) (k k₂ : κ) (v : ν) (h : k ≠ k₂) :
    contains (set m k v) k₂ = contains m k₂ := by
  simp [contains, assoc_get?_set_other m k k₂ v h]

theorem assoc_contains_delete_self (m : Entries κ ν) (k : κ) : contains (delete m k) k = false := by
  simp [contains, assoc_get?_delete_self]

theorem assoc_contains_delete_other (m : Entries κ ν) (k k₂ : κ) (h : k ≠ k₂) :
    contains (delete m k) k₂ = contains m k₂ := by
  simp [contains, assoc_get?_delete_other m k k₂ h]

theorem assoc_delete_of_not_contains (m : Entries κ ν) (k : κ)
    (h : contains m k = false) : delete m k = m := by
  induction m with
  | nil => rfl
  | cons e rest ih =>
    obtain ⟨k', v'⟩ := e
    by_cases hk : k' = k
    · simp [contains, get?, hk] at h
    · have hrest : contains rest k = false := by
        simpa [contains, get?, hk] using h
      have ih' := ih hrest
      simp only [delete] at ih' ⊢
      simp [List.filter_cons, hk, ih']

theorem assoc_mem_keys_set (m : Entries κ ν) (k k₂ : κ) (v : ν) :
    k₂ ∈ keys (set m k v) ↔ k₂ = k ∨ k₂ ∈ keys m := by
  induction m with
  | nil => simp [set, keys]
  | cons e rest ih =>
    obtain ⟨k', v'⟩ := e
    by_cases h : k' = k
    · subst h
      simp [set, keys]
    · simp only [keys] at ih
      simp only [set, h, if_false, keys, List.map_cons, List.mem_cons, ih]
      constructor
      · rintro (h₁ | h₁ | h₁)
        · exact Or.inr (Or.inl h₁)
        · exact Or.inl h₁
        · exact Or.inr (Or.inr h₁)
      · rintro (h₁ | h₁ | h₁)
        · exact Or.inr (Or.inl h₁)
        · exact Or.inl h₁
        · exact Or.inr (Or.inr h₁)

/-- An assignment keeps the keys of the map distinct. -/
theorem assoc_nodup_keys_set (m : Entries κ ν) (k : κ) (v : ν) (h : (keys m).Nodup) :
    (keys (set m k v)).Nodup := by
  induction m with
  | nil => simp [set, keys]
  | cons e rest ih =>
    obtain ⟨k', v'⟩ := e
    simp only [keys, List.map_cons, List.nodup_cons] at h
    by_cases hk : k' = k
    · subst hk
      simp only [set, if_true, keys, List.map_cons, List.nodup_cons]
      exact h
    · simp only [set, hk, if_false, keys, List.map_cons, List.nodup_cons]
      refine ⟨?_, ih h.2⟩
      intro hmem
      have := (assoc_mem_keys_set rest k k' v).1 hmem
      rcases this with h₁ | h₁
      · exact hk h₁
      · exact h.1 h₁

/-- A `delete` keeps the keys of the map distinct. -/
theorem assoc_nodup_keys_delete (m : Entries κ ν) (k : κ) (h : (keys m).Nodup) :
    (keys (delete m k)).Nodup := by
  have hsub : List.Sublist (keys (delete m k)) (keys m) :=
    List.Sublist.map Prod.fst (List.filter_sublist m)
  exact List.Nodup.sublist hsub h

end Entries

namespace GoMap

variable {κ ν : Type} [DecidableEq κ]

theorem set_made (es : Entries κ ν) (k : κ) (v : ν) :
    set (made es) k v = some (made (Entries.set es k v)) := rfl

theorem set_nil (k : κ) (v : ν) : set (nil : GoMap κ ν) k v = none := rfl

/-- An assignment panics on the nil map and on no other. -/
theorem set_eq_none_iff (m : GoMap κ ν) (k : κ) (v : ν) : set m k v = none ↔ m = nil := by
  cases m <;> simp [set]

theorem of_set_eq_some {m m' : GoMap κ ν} {k : κ} {v : ν} (h : set m k v = some m') :
    ∃ es, m = made es ∧ m' = made (Entries.set es k v) := by
  cases m with
  | nil => simp [set] at h
  | made es =>
    simp only [set, Option.some.injEq] at h
    exact ⟨es, rfl, h.symm⟩

theorem get?_set_self {m m' : GoMap κ ν} {k : κ} {v : ν} (h : set m k v = some m') :
    get? m' k = some v := by
  obtain ⟨es, rfl, rfl⟩ := of_set_eq_some h
  exact Entries.assoc_get?_set_self es k v

theorem get?_set_other {m m' : GoMap κ ν} {k : κ} {v : ν} (h : set m k v = some m') (k₂ : κ)
    (hne : k ≠ k₂) : get? m' k₂ = get? m k₂ := by
  obtain ⟨es, rfl, rfl⟩ := of_set_eq_some h
  exact Entries.assoc_get?_set_other es k k₂ v hne

theorem contains_set_self {m m' : GoMap κ ν} {k : κ} {v : ν} (h : set m k v = some m') :
    contains m' k = true := by
  simp [contains, get?_set_self h]

theorem contains_set_other {m m' : GoMap κ ν} {k : κ} {v : ν} (h : set m k v = some m') (k₂ : κ)
    (hne : k ≠ k₂) : contains m' k₂ = contains m k₂ := by
  simp [contains, get?_set_other h k₂ hne]

theorem get?_delete_self (m : GoMap κ ν) (k : κ) : get? (delete m k) k = none := by
  cases m with
  | nil => rfl
  | made es => exact Entries.assoc_get?_delete_self es k

theorem get?_delete_other (m : GoMap κ ν) (k k₂ : κ) (h : k ≠ k₂) :
    get? (delete m k) k₂ = get? m k₂ := by
  cases m with
  | nil => rfl
  | made es => exact Entries.assoc_get?_delete_other es k k₂ h

theorem contains_delete_self (m : GoMap κ ν) (k : κ) : contains (delete m k) k = false := by
  simp [contains, get?_delete_self]

theorem contains_delete_other (m : GoMap κ ν) (k k₂ : κ) (h : k ≠ k₂) :
    contains (delete m k) k₂ = contains m k₂ := by
  simp [contains, get?_delete_other m k k₂ h]

theorem contains_empty (k : κ) : contains (empty : GoMap κ ν) k = false := rfl

theorem contains_nil (k : κ) : contains (nil : GoMap κ ν) k = false := rfl

theorem delete_of_not_contains (m : GoMap κ ν) (k : κ) (h : contains m k = false) :
    delete m k = m := by
  cases m with
  | nil => rfl
  | made es =>
    simp only [delete]
    rw [Entries.assoc_delete_of_not_contains es k h]

/-- An assignment keeps the keys of the map distinct. -/
theorem nodup_keys_set {m m' : GoMap κ ν} {k : κ} {v : ν} (h : set m k v = some m')
    (hnd : (keys m).Nodup) : (keys m').Nodup := by
  obtain ⟨es, rfl, rfl⟩ := of_set_eq_some h
  exact Entries.assoc_nodup_keys_set es k v hnd

/-- A `delete` keeps the keys of the map distinct. -/
theorem nodup_keys_delete (m : GoMap κ ν) (k : κ) (h : (keys m).Nodup) :
    (keys (delete m k)).Nodup := by
  cases m with
  | nil => exact h
  | made es => exact Entries.assoc_nodup_keys_delete es k h

end GoMap

/-! ## CompareHeight -/

theorem CompareHeight_eq (localHeight : Nat) (heights : List Nat) :
    CompareHeight localHeight heights =
      if ∃ h ∈ heights, localHeight < h then -1 else 1 := by
  induction heights with
  | nil => simp [CompareHeight]
  | cons h hs ih =>
    by_cases hlt : localHeight < h
    · simp [CompareHeight, hlt]
    · simp [CompareHeight, hlt, ih]

/-- C1. `CompareHeight local heights` is `-1` exactly when some element of `heights` is
strictly greater than `local`, and `+1` in every other case; it is `+1` for the empty list
and for a list whose elements all equal `local`. -/
theorem CompareHeight_spec (localHeight : Nat) (heights : List Nat) (n : Nat) :
    (CompareHeight localHeight heights = -1 ↔ ∃ h ∈ heights, localHeight < h) ∧
    (CompareHeight localHeight heights = 1 ↔ ¬ ∃ h ∈ heights, localHeight < h) ∧
    (CompareHeight localHeight heights = -1 ∨ CompareHeight localHeight heights = 1) ∧
    CompareHeight localHeight [] = 1 ∧
    CompareHeight localHeight (List.replicate n localHeight) = 1 := by
  refine ⟨?_, ?_, ?_, rfl, ?_⟩
  · rw [CompareHeight_eq]
    by_cases h : ∃ h ∈ heights, localHeight < h <;> simp [h]
  · rw [CompareHeight_eq]
    by_cases h : ∃ h ∈ heights, localHeight < h <;> simp [h]
  · rw [CompareHeight_eq]
    by_cases h : ∃ h ∈ heights, localHeight < h <;> simp [h]
  · rw [CompareHeight_eq]
    simp [List.mem_replicate]

/-! ## ConnectingNodes -/

/-- On a registry whose map was made, `add` returns whether the address was absent, and
leaves the address in the registry. -/
theorem add_made (es : Entries String Unit) (a : String) :
    (ConnectingNodes.mk (GoMap.made es)).add a =
      some (!Entries.contains es a,
        ConnectingNodes.mk (GoMap.made (if Entries.contains es a = true then es
          else Entries.set es a ()))) := by
  by_cases h : Entries.contains es a = true
  · have h' : GoMap.contains (GoMap.made es) a = true := h
    simp [ConnectingNodes.add, h, h']
  · have h' : GoMap.contains (GoMap.made es) a = false := by
      simpa using h
    simp only [Bool.not_eq_true] at h
    simp [ConnectingNodes.add, h, h', GoMap.set]

/-- On a registry whose map is nil, `add` panics. -/
theorem add_nil (a : String) : (ConnectingNodes.mk GoMap.nil).add a = none := rfl

theorem del_made (es : Entries String Unit) (a : String) :
    (ConnectingNodes.mk (GoMap.made es)).del a =
      ConnectingNodes.mk (GoMap.made (Entries.delete es a)) := rfl

theorem del_contains_self (cn : ConnectingNodes) (a : String) :
    GoMap.contains (cn.del a).List a = false := by
  simp [ConnectingNodes.del, GoMap.contains_delete_self]

theorem del_contains_other (cn : ConnectingNodes) (a b : String) (h : a ≠ b) :
    GoMap.contains (cn.del a).List b = GoMap.contains cn.List b := by
  simp [ConnectingNodes.del, GoMap.contains_delete_other _ a b h]

theorem Entries.contains_set_or_self (es : Entries String Unit) (a : String) :
    Entries.contains (if Entries.contains es a = true then es else Entries.set es a ()) a =
      true := by
  by_cases h : Entries.contains es a = true
  · simp [h]
  · simp [h, Entries.assoc_contains_set_self]

theorem Entries.contains_set_or_other (es : Entries String Unit) (a b : String) (hne : a ≠ b) :
    Entries.contains (if Entries.contains es a = true then es else Entries.set es a ()) b =
      Entries.contains es b := by
  by_cases h : Entries.contains es a = true
  · simp [h]
  · simp [h, Entries.assoc_contains_set_other es a b () hne]

/-- While `a` is in the registry and is not deleted, every `add a` returns false. -/
theorem addResults_of_contains (a : String) (calls : List ConnectingCall) :
    ∀ es : Entries String Unit, Entries.contains es a = true → ConnectingCall.del a ∉ calls →
      addResults a (ConnectingNodes.mk (GoMap.made es)) calls =
        some (List.replicate (calls.count (ConnectingCall.add a)) false) := by
  induction calls with
  | nil => intro es _ _; simp [addResults]
  | cons call rest ih =>
    intro es hin hdel
    have hrest : ConnectingCall.del a ∉ rest := fun h => hdel (List.mem_cons_of_mem _ h)
    cases call with
    | add addr =>
      by_cases h : addr = a
      · subst h
        simp [addResults, add_made, hin, ih es hin hrest, List.replicate_succ]
      · have hne : ConnectingCall.add addr ≠ ConnectingCall.add a := by
          intro heq; exact h (ConnectingCall.add.inj heq)
        have hin' := (Entries.contains_set_or_other es addr a h).trans hin
        simp only [addResults, add_made, h, if_false, List.count_cons_of_ne hne.symm]
        rw [ih _ hin' hrest]
        simp
    | del addr =>
      have h : addr ≠ a := by
        intro heq; subst heq; exact hdel (List.mem_cons_self _ _)
      have hin' : Entries.contains (Entries.delete es addr) a = true :=
        (Entries.assoc_contains_delete_other es addr a h).trans hin
      have hne : ConnectingCall.del addr ≠ ConnectingCall.add a := by
        intro heq; cases heq
      simp only [addResults, del_made, List.count_cons_of_ne hne.symm]
      exact ih _ hin' hrest

/-- From a made registry without `a`, and with no `del a` among the calls, the first `add a`
returns true and the later ones false. -/
theorem addResults_of_absent (a : String) (calls : List ConnectingCall) :
    ∀ es : Entries String Unit, Entries.contains es a = false → ConnectingCall.del a ∉ calls →
      addResults a (ConnectingNodes.mk (GoMap.made es)) calls =
        some (match calls.count (ConnectingCall.add a) with
          | 0 => []
          | k + 1 => true :: List.replicate k false) := by
  induction calls with
  | nil => intro es _ _; simp [addResults]
  | cons call rest ih =>
    intro es hout hdel
    have hrest : ConnectingCall.del a ∉ rest := fun h => hdel (List.mem_cons_of_mem _ h)
    cases call with
    | add addr =>
      by_cases h : addr = a
      · subst h
        have hin' := Entries.contains_set_or_self es addr
        simp only [addResults, add_made, if_true, List.count_cons_self]
        rw [addResults_of_contains addr rest _ hin' hrest]
        simp [hout]
      · have hne : ConnectingCall.add addr ≠ ConnectingCall.add a := by
          intro heq; exact h (ConnectingCall.add.inj heq)
        have hout' := (Entries.contains_set_or_other es addr a h).trans hout
        simp only [addResults, add_made, h, if_false, List.count_cons_of_ne hne.symm]
        rw [ih _ hout' hrest]
        simp
    | del addr =>
      have h : addr ≠ a := by
        intro heq; subst heq; exact hdel (List.mem_cons_self _ _)
      have hout' : Entries.contains (Entries.delete es addr) a = false :=
        (Entries.assoc_contains_delete_other es addr a h).trans hout
      have hne : ConnectingCall.del addr ≠ ConnectingCall.add a := by
        intro heq; cases heq
      simp only [addResults, del_made, List.count_cons_of_ne hne.symm]
      exact ih _ hout' hrest

/-- C2, as stated, fails: on the registry of a node that only went through `NewNode`, whose
`List` is nil, the address is absent and `add` does not return true: the assignment of line
89 panics. `AddToConnectingList` on such a node panics with it. -/
theorem add_on_nil_registry_counterexample :
    GoMap.contains (toyPeer 1 true ⟨false, []⟩).ConnectingNodes.List "a" = false ∧
    (toyPeer 1 true ⟨false, []⟩).ConnectingNodes.add "a" = none ∧
    (toyPeer 1 true ⟨false, []⟩).AddToConnectingList "a" = none ∧
    ¬ (∃ cn', (toyPeer 1 true ⟨false, []⟩).ConnectingNodes.add "a" = some (true, cn')) := by
  have hnone : (toyPeer 1 true ⟨false, []⟩).ConnectingNodes.add "a" = none := by decide
  refine ⟨by decide, hnone, by decide, ?_⟩
  rintro ⟨cn', h⟩
  rw [hnone] at h
  cases h

/-- C2, amended. For every address `a` and every registry `cn` whose map was made (by `init`,
as `InitLocalNode` does), `add a` returns, and returns true exactly when `a` was not in the
registry before the call, and `a` is in the registry after the call, which is still a made
one; and in any sequence of calls run from a made registry `cn₀` without `a`, with no `del a`
in it (other addresses may be added and deleted), no call panics and the `add a` calls return
true the first time and false every later time. On a registry whose map is nil `add` panics.
`AddToConnectingList` does on the registry of the node what `add` does. -/
theorem ConnectingNodes_add_first_wins (cn cn₀ : ConnectingNodes) (a : String)
    (calls : List ConnectingCall)
    (hmade : cn.List ≠ GoMap.nil) (hmade₀ : cn₀.List ≠ GoMap.nil)
    (habsent : GoMap.contains cn₀.List a = false)
    (hnodel : ConnectingCall.del a ∉ calls) :
    (∃ cn', cn.add a = some (!GoMap.contains cn.List a, cn') ∧
      GoMap.contains cn'.List a = true ∧ cn'.List ≠ GoMap.nil) ∧
    ((∃ cn', cn.add a = some (true, cn')) ↔ GoMap.contains cn.List a = false) ∧
    addResults a cn₀ calls =
      some (match calls.count (ConnectingCall.add a) with
        | 0 => []
        | k + 1 => true :: List.replicate k false) ∧
    (∀ cn₁ : ConnectingNodes, cn₁.List = GoMap.nil → cn₁.add a = none) ∧
    (∀ n : node Unit Unit Unit,
      (n.AddToConnectingList a).map (fun r => (r.1, r.2.ConnectingNodes)) =
        n.ConnectingNodes.add a) := by
  obtain ⟨l⟩ := cn
  obtain ⟨l₀⟩ := cn₀
  cases l with
  | nil => exact absurd rfl hmade
  | made es =>
    cases l₀ with
    | nil => exact absurd rfl hmade₀
    | made es₀ =>
      refine ⟨?_, ?_, addResults_of_absent a calls es₀ habsent hnodel, ?_, ?_⟩
      · refine ⟨_, add_made es a, ?_, ?_⟩
        · exact Entries.contains_set_or_self es a
        · intro h; cases h
      · rw [add_made]
        have hc : GoMap.contains (GoMap.made es) a = Entries.contains es a := rfl
        rw [hc]
        cases Entries.contains es a <;> simp
      · intro cn₁ h₁
        obtain ⟨l₁⟩ := cn₁
        simp only at h₁
        subst h₁
        rfl
      · intro n
        simp only [node.AddToConnectingList, Option.map_map]
        cases n.ConnectingNodes.add a <;> rfl

/-- Witness for C2 amended: from the made, empty registry, with calls on "a" and "b"
interleaved, the three `add "a"` return true, false, false. -/
theorem ConnectingNodes_add_first_wins_witness :
    (ConnectingNodes.mk GoMap.empty).List ≠ GoMap.nil ∧
    GoMap.contains (ConnectingNodes.mk GoMap.empty).List "a" = false ∧
    addResults "a" (ConnectingNodes.mk GoMap.empty)
      [ConnectingCall.add "b", ConnectingCall.add "a", ConnectingCall.del "b",
       ConnectingCall.add "a", ConnectingCall.add "b", ConnectingCall.add "a"]
      = some [true, false, false] :=
  ⟨by decide, by decide,
   (ConnectingNodes_add_first_wins (ConnectingNodes.mk (GoMap.made [("b", ())]))
      (ConnectingNodes.mk GoMap.empty) "a"
      [ConnectingCall.add "b", ConnectingCall.add "a", ConnectingCall.del "b",
       ConnectingCall.add "a", ConnectingCall.add "b", ConnectingCall.add "a"]
      (by decide) (by decide) (by decide) (by decide)).2.2.1⟩

/-! ## Relay -/

namespace node

variable {Tx Blk F L : Type}

/-- The transaction case of the switch: the neighbour it leaves, and the receiver with the
counter stepped exactly when the full transaction was sent. -/
theorem relayNbr_tx (c : Collab Tx Blk F L) (t : Tx) (self nbr : node Tx Blk F) :
    relayNbr c (Message.Transaction t) self nbr =
      Except.ok
        (if (c.IsLoaded nbr.filter && (c.MatchTxAndUpdate nbr.filter t).1) = false ∧ nbr.relay = true
          then { self with txnCnt := (self.txnCnt + 1) % uint64Mod } else self,
         relayNbrTarget c (Message.Transaction t) nbr) := by
  cases hl : c.IsLoaded nbr.filter <;> cases hm : (c.MatchTxAndUpdate nbr.filter t).1 <;>
    cases hr : nbr.relay <;>
    simp [relayNbr, relayNbrTarget, BloomFilter, IsRelay, Send, hl, hm, hr]

/-- The block case of the switch: the receiver is left as it is. -/
theorem relayNbr_block (c : Collab Tx Blk F L) (b : Blk) (self nbr : node Tx Blk F) :
    relayNbr c (Message.Block b) self nbr =
      Except.ok (self, relayNbrTarget c (Message.Block b) nbr) := by
  cases hl : c.IsLoaded nbr.filter <;> cases hr : nbr.relay <;>
    simp [relayNbr, relayNbrTarget, BloomFilter, IsRelay, Send, hl, hr]

theorem relayNbr_other (c : Collab Tx Blk F L) (tag : Nat) (self nbr : node Tx Blk F) :
    relayNbr c (Message.Other tag) self nbr = Except.error "unknown relay message type" := rfl

theorem relayNbrTarget_other (c : Collab Tx Blk F L) (tag : Nat) (nbr : node Tx Blk F) :
    relayNbrTarget c (Message.Other tag) nbr = nbr := rfl

/-- What the switch sends to a neighbour that has passed the originator test, by message and
by the neighbour's filter and relay flag. -/
theorem relayNbrTarget_sent (c : Collab Tx Blk F L) (message : Message Tx Blk)
    (nbr : node Tx Blk F) :
    (relayNbrTarget c message nbr).sent = nbr.sent ++
      (match message with
        | Message.Transaction t =>
          if (c.IsLoaded nbr.filter && (c.MatchTxAndUpdate nbr.filter t).1) = true then
            [WireMsg.Inventory [⟨InvType.InvTypeTx, c.txHash t⟩]]
          else if nbr.relay = true then [WireMsg.Tx t] else []
        | Message.Block b =>
          if c.IsLoaded nbr.filter = true then
            [WireMsg.Inventory [⟨InvType.InvTypeBlock, c.blockHash b⟩]]
          else if nbr.relay = true then [WireMsg.Block b] else []
        | Message.Other _ => []) := by
  cases message with
  | Transaction t =>
    cases hl : c.IsLoaded nbr.filter <;> cases hm : (c.MatchTxAndUpdate nbr.filter t).1 <;>
      cases hr : nbr.relay <;>
      simp [relayNbr, relayNbrTarget, BloomFilter, IsRelay, Send, hl, hm, hr]
  | Block b =>
    cases hl : c.IsLoaded nbr.filter <;> cases hr : nbr.relay <;>
      simp [relayNbr, relayNbrTarget, BloomFilter, IsRelay, Send, hl, hr]
  | Other tag => simp [relayNbrTarget_other]

/-- The switch appends at most one message to the neighbour's traffic. -/
theorem relayNbrTarget_sent_le_one (c : Collab Tx Blk F L) (message : Message Tx Blk)
    (nbr : node Tx Blk F) :
    ∃ l, (relayNbrTarget c message nbr).sent = nbr.sent ++ l ∧ l.length ≤ 1 := by
  refine ⟨_, relayNbrTarget_sent c message nbr, ?_⟩
  cases message with
  | Transaction t =>
    by_cases h₁ : (c.IsLoaded nbr.filter && (c.MatchTxAndUpdate nbr.filter t).1) = true
    · simp [h₁]
    · by_cases h₂ : nbr.relay = true <;> simp [h₁, h₂]
  | Block b =>
    by_cases h₁ : c.IsLoaded nbr.filter = true
    · simp [h₁]
    · by_cases h₂ : nbr.relay = true <;> simp [h₁, h₂]
  | Other tag => simp

/-- The switch leaves the id of the neighbour as it is. -/
theorem relayNbrTarget_id (c : Collab Tx Blk F L) (message : Message Tx Blk)
    (nbr : node Tx Blk F) : (relayNbrTarget c message nbr).id = nbr.id := by
  cases message with
  | Transaction t =>
    cases hl : c.IsLoaded nbr.filter <;> cases hm : (c.MatchTxAndUpdate nbr.filter t).1 <;>
      cases hr : nbr.relay <;>
      simp [relayNbr, relayNbrTarget, BloomFilter, IsRelay, Send, hl, hm, hr]
  | Block b =>
    cases hl : c.IsLoaded nbr.filter <;> cases hr : nbr.relay <;>
      simp [relayNbr, relayNbrTarget, BloomFilter, IsRelay, Send, hl, hr]
  | Other tag => rfl

/-- The neighbours after the loop: each one that passes the originator test is left as the
switch leaves it, every other one as it was. -/
theorem relayLoop_nbrs (c : Collab Tx Blk F L) (from' : Option (node Tx Blk F))
    (message : Message Tx Blk) (nbrs : List (node Tx Blk F)) :
    ∀ self : node Tx Blk F, (relayLoop c from' message self nbrs).nbrs =
      nbrs.map (fun n => if notOriginator from' n = true then relayNbrTarget c message n else n) := by
  induction nbrs with
  | nil => intro self; rfl
  | cons nbr rest ih =>
    intro self
    by_cases ho : notOriginator from' nbr = true
    · cases message with
      | Transaction t => simp [relayLoop, ho, relayNbr_tx, ih]
      | Block b => simp [relayLoop, ho, relayNbr_block, ih]
      | Other tag =>
        simp only [relayLoop, ho, if_true, relayNbr_other, relayNbrTarget_other, ite_self]
        simp
    · simp [relayLoop, ho, ih]

theorem relayLoop_other (c : Collab Tx Blk F L) (from' : Option (node Tx Blk F)) (tag : Nat)
    (nbrs : List (node Tx Blk F)) :
    ∀ self : node Tx Blk F, relayLoop c from' (Message.Other tag) self nbrs =
      ⟨if nbrs.any (notOriginator from') = true then some "unknown relay message type" else none,
        self, nbrs⟩ := by
  induction nbrs with
  | nil => intro self; rfl
  | cons nbr rest ih =>
    intro self
    by_cases ho : notOriginator from' nbr = true
    · simp [relayLoop, ho, relayNbr_other]
    · simp [relayLoop, ho, ih]

theorem relayLoop_block (c : Collab Tx Blk F L) (from' : Option (node Tx Blk F)) (b : Blk)
    (nbrs : List (node Tx Blk F)) :
    ∀ self : node Tx Blk F,
      (relayLoop c from' (Message.Block b) self nbrs).err = none ∧
      (relayLoop c from' (Message.Block b) self nbrs).self = self := by
  induction nbrs with
  | nil => intro self; exact ⟨rfl, rfl⟩
  | cons nbr rest ih =>
    intro self
    by_cases ho : notOriginator from' nbr = true
    · simp [relayLoop, ho, relayNbr_block, ih]
    · simp [relayLoop, ho, ih]

theorem relayLoop_tx_err (c : Collab Tx Blk F L) (from' : Option (node Tx Blk F)) (t : Tx)
    (nbrs : List (node Tx Blk F)) :
    ∀ self : node Tx Blk F, (relayLoop c from' (Message.Transaction t) self nbrs).err = none := by
  induction nbrs with
  | nil => intro self; rfl
  | cons nbr rest ih =>
    intro self
    by_cases ho : notOriginator from' nbr = true
    · simp [relayLoop, ho, relayNbr_tx, ih]
    · simp [relayLoop, ho, ih]

/-- The receiver after the loop over `xs ++ ys`, for a transaction: the loop over `ys`
started from the receiver the loop over `xs` leaves. -/
theorem relayLoop_tx_append_self (c : Collab Tx Blk F L) (from' : Option (node Tx Blk F)) (t : Tx)
    (xs ys : List (node Tx Blk F)) :
    ∀ self : node Tx Blk F,
      (relayLoop c from' (Message.Transaction t) self (xs ++ ys)).self =
        (relayLoop c from' (Message.Transaction t)
          (relayLoop c from' (Message.Transaction t) self xs).self ys).self := by
  induction xs with
  | nil => intro self; rfl
  | cons nbr rest ih =>
    intro self
    by_cases ho : notOriginator from' nbr = true
    · simp [relayLoop, ho, relayNbr_tx, ih]
    · simp [relayLoop, ho, ih]

theorem notOriginator_iff (from' : Option (node Tx Blk F)) (nbr : node Tx Blk F) :
    notOriginator from' nbr = true ↔ ∀ f, from' = some f → nbr.ID ≠ f.ID := by
  cases from' with
  | none => simp [notOriginator]
  | some f => simp [notOriginator]

theorem relaySuppressed_eq_false_iff (LocalNode : node Tx Blk F) (from' : Option (node Tx Blk F)) :
    relaySuppressed LocalNode from' = false ↔ from' = none ∨ LocalNode.IsSyncHeaders = false := by
  cases from' <;> simp [relaySuppressed]

theorem map_getElem?_mid {α β : Type} (g : α → β) (pre post : List α) (n : α) :
    ((pre ++ n :: post).map g)[pre.length]? = some (g n) := by
  induction pre with
  | nil => simp
  | cons a rest ih => simpa using ih

/-- The neighbour in the middle of the list after a call that is not suppressed. -/
theorem Relay_nbrs_mid (c : Collab Tx Blk F L) (LocalNode self : node Tx Blk F)
    (from' : Option (node Tx Blk F)) (message : Message Tx Blk)
    (pre post : List (node Tx Blk F)) (n : node Tx Blk F)
    (hns : relaySuppressed LocalNode from' = false) (ho : notOriginator from' n = true) :
    (Relay c LocalNode self from' message (pre ++ n :: post)).nbrs[pre.length]? =
      some (relayNbrTarget c message n) := by
  simp only [Relay, hns, Bool.false_eq_true, if_false, relayLoop_nbrs]
  rw [map_getElem?_mid]
  simp [ho]

/-- The counter after a transaction was relayed to `pre ++ [n]`, from the counter after it
was relayed to `pre`. -/
theorem Relay_tx_snoc_txnCnt (c : Collab Tx Blk F L) (LocalNode self : node Tx Blk F)
    (from' : Option (node Tx Blk F)) (t : Tx) (pre : List (node Tx Blk F)) (n : node Tx Blk F)
    (hns : relaySuppressed LocalNode from' = false) (ho : notOriginator from' n = true) :
    (Relay c LocalNode self from' (Message.Transaction t) (pre ++ [n])).self.txnCnt =
      if (c.IsLoaded n.filter && (c.MatchTxAndUpdate n.filter t).1) = false ∧ n.relay = true
      then ((Relay c LocalNode self from' (Message.Transaction t) pre).self.txnCnt + 1) % uint64Mod
      else (Relay c LocalNode self from' (Message.Transaction t) pre).self.txnCnt := by
  simp only [Relay, hns, Bool.false_eq_true, if_false, relayLoop_tx_append_self]
  generalize (relayLoop c from' (Message.Transaction t) self pre).self = s
  by_cases h : (c.IsLoaded n.filter && (c.MatchTxAndUpdate n.filter t).1) = false ∧ n.relay = true
  · simp [relayLoop, ho, relayNbr_tx, h]
  · simp only [relayLoop, ho, if_true, relayNbr_tx, h, if_false]

/-- C3, as stated, fails: the counter is a `uint64` stepped by `txnCnt++`, which wraps. With
the receiver's counter at `2 ^ 64 - 1`, transaction 7 from peer 1 is sent in full to peer 2
(no filter, relay-eligible), and the counter for it goes from `2 ^ 64 - 1` to 0: it is not
incremented by 1. -/
theorem txnCnt_step_wraps_counterexample :
    ((Relay toyCollab (toyLocal 0) { toyLocal 0 with txnCnt := 2 ^ 64 - 1 }
        (some (toyPeer 1 true ⟨false, []⟩)) (Message.Transaction 7)
        ([toyPeer 1 true ⟨false, []⟩] ++ toyPeer 2 true ⟨false, []⟩ :: [])).nbrs[1]?).map
          (fun x => x.sent) = some [WireMsg.Tx 7] ∧
    (Relay toyCollab (toyLocal 0) { toyLocal 0 with txnCnt := 2 ^ 64 - 1 }
        (some (toyPeer 1 true ⟨false, []⟩)) (Message.Transaction 7)
        [toyPeer 1 true ⟨false, []⟩]).self.GetTxnCnt = 2 ^ 64 - 1 ∧
    (Relay toyCollab (toyLocal 0) { toyLocal 0 with txnCnt := 2 ^ 64 - 1 }
        (some (toyPeer 1 true ⟨false, []⟩)) (Message.Transaction 7)
        ([toyPeer 1 true ⟨false, []⟩] ++ [toyPeer 2 true ⟨false, []⟩])).self.GetTxnCnt = 0 ∧
    (Relay toyCollab (toyLocal 0) { toyLocal 0 with txnCnt := 2 ^ 64 - 1 }
        (some (toyPeer 1 true ⟨false, []⟩)) (Message.Transaction 7)
        ([toyPeer 1 true ⟨false, []⟩] ++ [toyPeer 2 true ⟨false, []⟩])).self.GetTxnCnt ≠
      (Relay toyCollab (toyLocal 0) { toyLocal 0 with txnCnt := 2 ^ 64 - 1 }
        (some (toyPeer 1 true ⟨false, []⟩)) (Message.Transaction 7)
        [toyPeer 1 true ⟨false, []⟩]).self.GetTxnCnt + 1 := by
  decide

/-- C3, amended. For a call of `Relay` that is not suppressed (`from` is nil or the local node
is not in header-sync) with a transaction `T`, and every neighbour `n` of the list whose id
differs from the originator's: the call returns nil; if `n` has no filter loaded and is
relay-eligible, it is sent exactly one message, the full transaction `T`, and the outbound
counter is incremented by 1 for it modulo `2 ^ 64`, as `txnCnt++` on a `uint64` does: the
counter after `pre ++ [n]` is the counter after `pre` plus one modulo `2 ^ 64`, so exactly
one more whenever that is below `2 ^ 64`; if `n` has a loaded filter that matches `T`, it is
sent exactly one message, the inventory with the single entry (transaction type, `hash(T)`),
and the counter is not incremented for it. -/
theorem Relay_transaction (c : Collab Tx Blk F L) (LocalNode self : node Tx Blk F)
    (from' : Option (node Tx Blk F)) (T : Tx)
    (pre post : List (node Tx Blk F)) (n : node Tx Blk F)
    (hns : from' = none ∨ LocalNode.IsSyncHeaders = false)
    (hid : ∀ f, from' = some f → n.ID ≠ f.ID) :
    (Relay c LocalNode self from' (Message.Transaction T) (pre ++ n :: post)).err = none ∧
    (c.IsLoaded n.BloomFilter = false → n.IsRelay = true →
      ((Relay c LocalNode self from' (Message.Transaction T) (pre ++ n :: post)).nbrs[pre.length]?).map
          (fun x => x.sent) = some (n.sent ++ [WireMsg.Tx T]) ∧
      (Relay c LocalNode self from' (Message.Transaction T) (pre ++ [n])).self.GetTxnCnt =
        ((Relay c LocalNode self from' (Message.Transaction T) pre).self.GetTxnCnt + 1) % 2 ^ 64 ∧
      ((Relay c LocalNode self from' (Message.Transaction T) pre).self.GetTxnCnt + 1 < 2 ^ 64 →
        (Relay c LocalNode self from' (Message.Transaction T) (pre ++ [n])).self.GetTxnCnt =
          (Relay c LocalNode self from' (Message.Transaction T) pre).self.GetTxnCnt + 1)) ∧
    (c.IsLoaded n.BloomFilter = true → (c.MatchTxAndUpdate n.BloomFilter T).1 = true →
      ((Relay c LocalNode self from' (Message.Transaction T) (pre ++ n :: post)).nbrs[pre.length]?).map
          (fun x => x.sent) =
        some (n.sent ++ [WireMsg.Inventory [⟨InvType.InvTypeTx, c.txHash T⟩]]) ∧
      (Relay c LocalNode self from' (Message.Transaction T) (pre ++ [n])).self.GetTxnCnt =
        (Relay c LocalNode self from' (Message.Transaction T) pre).self.GetTxnCnt) := by
  have hns' := (relaySuppressed_eq_false_iff LocalNode from').2 hns
  have ho := (notOriginator_iff from' n).2 hid
  refine ⟨?_, ?_, ?_⟩
  · simp [Relay, hns', relayLoop_tx_err]
  · intro hl hr
    simp only [BloomFilter] at hl
    simp only [IsRelay] at hr
    have hstep : (Relay c LocalNode self from' (Message.Transaction T) (pre ++ [n])).self.txnCnt =
        ((Relay c LocalNode self from' (Message.Transaction T) pre).self.txnCnt + 1) % 2 ^ 64 := by
      rw [Relay_tx_snoc_txnCnt c LocalNode self from' T pre n hns' ho]
      simp [hl, hr, uint64Mod]
    refine ⟨?_, ?_, ?_⟩
    · rw [Relay_nbrs_mid c LocalNode self from' _ pre post n hns' ho]
      simp [relayNbrTarget_sent, hl, hr]
    · simp only [GetTxnCnt]
      exact hstep
    · simp only [GetTxnCnt]
      intro hlt
      rw [hstep]
      exact Nat.mod_eq_of_lt hlt
  · intro hl hm
    simp only [BloomFilter] at hl hm
    refine ⟨?_, ?_⟩
    · rw [Relay_nbrs_mid c LocalNode self from' _ pre post n hns' ho]
      simp [relayNbrTarget_sent, hl, hm]
    · simp only [GetTxnCnt]
      rw [Relay_tx_snoc_txnCnt c LocalNode self from' T pre n hns' ho]
      simp [hl, hm]

/-- Witness for C3 amended: the local node is not in header-sync, transaction 7 comes from peer 1;
peer 2 (no filter, relay-eligible) is sent the full transaction and the counter goes from 0
to 1; peer 3 (loaded filter that matches 7) is sent the inventory of hash 1007, and the
counter stays at 1. -/
theorem Relay_transaction_witness :
    ((some (toyPeer 1 true ⟨false, []⟩) : Option (node Nat Nat ToyFilter)) = none ∨
      (toyLocal 0).IsSyncHeaders = false) ∧
    ((Relay toyCollab (toyLocal 0) (toyLocal 0) (some (toyPeer 1 true ⟨false, []⟩))
        (Message.Transaction 7)
        ([toyPeer 1 true ⟨false, []⟩] ++ toyPeer 2 true ⟨false, []⟩ ::
          [toyPeer 3 true ⟨true, [7]⟩])).nbrs[1]?).map (fun x => x.sent) = some [WireMsg.Tx 7] ∧
    (Relay toyCollab (toyLocal 0) (toyLocal 0) (some (toyPeer 1 true ⟨false, []⟩))
        (Message.Transaction 7)
        ([toyPeer 1 true ⟨false, []⟩] ++ [toyPeer 2 true ⟨false, []⟩])).self.GetTxnCnt = 1 ∧
    ((Relay toyCollab (toyLocal 0) (toyLocal 0) (some (toyPeer 1 true ⟨false, []⟩))
        (Message.Transaction 7)
        ([toyPeer 1 true ⟨false, []⟩, toyPeer 2 true ⟨false, []⟩] ++
          toyPeer 3 true ⟨true, [7]⟩ :: [])).nbrs[2]?).map (fun x => x.sent) =
      some [WireMsg.Inventory [⟨InvType.InvTypeTx, 1007⟩]] ∧
    (Relay toyCollab (toyLocal 0) (toyLocal 0) (some (toyPeer 1 true ⟨false, []⟩))
        (Message.Transaction 7)
        ([toyPeer 1 true ⟨false, []⟩, toyPeer 2 true ⟨false, []⟩] ++
          [toyPeer 3 true ⟨true, [7]⟩])).self.GetTxnCnt = 1 :=
  ⟨Or.inr (by decide),
   ((Relay_transaction toyCollab (toyLocal 0) (toyLocal 0) (some (toyPeer 1 true ⟨false, []⟩)) 7
      [toyPeer 1 true ⟨false, []⟩] [toyPeer 3 true ⟨true, [7]⟩] (toyPeer 2 true ⟨false, []⟩)
      (Or.inr (by decide)) (fun f hf => by cases hf; decide)).2.1 (by decide) (by decide)).1,
   ((Relay_transaction toyCollab (toyLocal 0) (toyLocal 0) (some (toyPeer 1 true ⟨false, []⟩)) 7
      [toyPeer 1 true ⟨false, []⟩] [toyPeer 3 true ⟨true, [7]⟩] (toyPeer 2 true ⟨false, []⟩)
      (Or.inr (by decide)) (fun f hf => by cases hf; decide)).2.1 (by decide) (by decide)).2.1,
   ((Relay_transaction toyCollab (toyLocal 0) (toyLocal 0) (some (toyPeer 1 true ⟨false, []⟩)) 7
      [toyPeer 1 true ⟨false, []⟩, toyPeer 2 true ⟨false, []⟩] [] (toyPeer 3 true ⟨true, [7]⟩)
      (Or.inr (by decide)) (fun f hf => by cases hf; decide)).2.2 (by decide) (by decide)).1,
   ((Relay_transaction toyCollab (toyLocal 0) (toyLocal 0) (some (toyPeer 1 true ⟨false, []⟩)) 7
      [toyPeer 1 true ⟨false, []⟩, toyPeer 2 true ⟨false, []⟩] [] (toyPeer 3 true ⟨true, [7]⟩)
      (Or.inr (by decide)) (fun f hf => by cases hf; decide)).2.2 (by decide) (by decide)).2⟩

/-- C4. For every message and every neighbour list, when `from` is not nil and the local
node's header-sync bit is set, `Relay` returns nil, sends nothing to any neighbour (every
neighbour, and so its outgoing traffic, is as before), and leaves the receiver, and so the
outbound transaction counter, unchanged. -/
theorem Relay_suppressed (c : Collab Tx Blk F L) (LocalNode self f : node Tx Blk F)
    (message : Message Tx Blk) (nbrs : List (node Tx Blk F))
    (hsync : LocalNode.IsSyncHeaders = true) :
    (Relay c LocalNode self (some f) message nbrs).err = none ∧
    (Relay c LocalNode self (some f) message nbrs).nbrs = nbrs ∧
    (Relay c LocalNode self (some f) message nbrs).nbrs.map (fun x => x.sent) =
      nbrs.map (fun x => x.sent) ∧
    (Relay c LocalNode self (some f) message nbrs).self = self ∧
    (Relay c LocalNode self (some f) message nbrs).self.GetTxnCnt = self.GetTxnCnt := by
  simp [Relay, relaySuppressed, hsync]

/-- Witness for C4: the local node is in header-sync (flag 1) and block 5 comes from peer 1;
relay-eligible peer 2 is sent nothing. -/
theorem Relay_suppressed_witness :
    (toyLocal 1).IsSyncHeaders = true ∧
    (Relay toyCollab (toyLocal 1) (toyLocal 1) (some (toyPeer 1 true ⟨false, []⟩))
      (Message.Block 5) [toyPeer 1 true ⟨false, []⟩, toyPeer 2 true ⟨false, []⟩]).err = none ∧
    (Relay toyCollab (toyLocal 1) (toyLocal 1) (some (toyPeer 1 true ⟨false, []⟩))
      (Message.Block 5) [toyPeer 1 true ⟨false, []⟩, toyPeer 2 true ⟨false, []⟩]).nbrs =
      [toyPeer 1 true ⟨false, []⟩, toyPeer 2 true ⟨false, []⟩] :=
  ⟨by decide,
   (Relay_suppressed toyCollab (toyLocal 1) (toyLocal 1) (toyPeer 1 true ⟨false, []⟩)
      (Message.Block 5) [toyPeer 1 true ⟨false, []⟩, toyPeer 2 true ⟨false, []⟩] (by decide)).1,
   (Relay_suppressed toyCollab (toyLocal 1) (toyLocal 1) (toyPeer 1 true ⟨false, []⟩)
      (Message.Block 5) [toyPeer 1 true ⟨false, []⟩, toyPeer 2 true ⟨false, []⟩] (by decide)).2.1⟩

/-- C5, as stated, fails: a call that is not suppressed, with a message that is neither a
transaction nor a block, returns nil when the neighbour list is empty, and when its only
member is the originator. -/
theorem unsupported_Relay_nil_counterexample :
    relaySuppressed (toyLocal 0) (none : Option (node Nat Nat ToyFilter)) = false ∧
    (Relay toyCollab (toyLocal 0) (toyLocal 0) none (Message.Other 0) []).err = none ∧
    relaySuppressed (toyLocal 0) (some (toyPeer 1 true ⟨false, []⟩)) = false ∧
    (Relay toyCollab (toyLocal 0) (toyLocal 0) (some (toyPeer 1 true ⟨false, []⟩))
      (Message.Other 0) [toyPeer 1 true ⟨false, []⟩]).err = none := by
  decide

/-- C5, amended. A call of `Relay` that is not suppressed by header-sync, with a message that
is neither a transaction nor a block, returns a non-nil error exactly when the neighbour list
has a member that passes the originator test (any member when `from` is nil, a member whose
id differs from `from`'s otherwise); the error is then "unknown relay message type". With no
such member it returns nil. Either way no neighbour is sent anything and the receiver is
unchanged. -/
theorem Relay_unsupported (c : Collab Tx Blk F L) (LocalNode self : node Tx Blk F)
    (from' : Option (node Tx Blk F)) (tag : Nat) (nbrs : List (node Tx Blk F))
    (hns : from' = none ∨ LocalNode.IsSyncHeaders = false) :
    ((Relay c LocalNode self from' (Message.Other tag) nbrs).err ≠ none ↔
      ∃ nbr ∈ nbrs, ∀ f, from' = some f → nbr.ID ≠ f.ID) ∧
    ((Relay c LocalNode self from' (Message.Other tag) nbrs).err ≠ none →
      (Relay c LocalNode self from' (Message.Other tag) nbrs).err =
        some "unknown relay message type") ∧
    (Relay c LocalNode self from' (Message.Other tag) nbrs).nbrs = nbrs ∧
    (Relay c LocalNode self from' (Message.Other tag) nbrs).self = self := by
  have hns' := (relaySuppressed_eq_false_iff LocalNode from').2 hns
  have hex : (nbrs.any (notOriginator from') = true) ↔
      ∃ nbr ∈ nbrs, ∀ f, from' = some f → nbr.ID ≠ f.ID := by
    rw [List.any_eq_true]
    constructor
    · rintro ⟨nbr, hmem, ho⟩
      exact ⟨nbr, hmem, (notOriginator_iff from' nbr).1 ho⟩
    · rintro ⟨nbr, hmem, ho⟩
      exact ⟨nbr, hmem, (notOriginator_iff from' nbr).2 ho⟩
  simp only [Relay, hns', Bool.false_eq_true, if_false, relayLoop_other]
  refine ⟨?_, ?_, trivial, trivial⟩
  · rw [← hex]
    by_cases h : nbrs.any (notOriginator from') = true <;> simp [h]
  · by_cases h : nbrs.any (notOriginator from') = true <;> simp [h]

/-- Witness for C5 amended: with peer 2 in the list besides the originator, peer 1, the call
fails. -/
theorem Relay_unsupported_witness :
    ((some (toyPeer 1 true ⟨false, []⟩) : Option (node Nat Nat ToyFilter)) = none ∨
      (toyLocal 0).IsSyncHeaders = false) ∧
    (Relay toyCollab (toyLocal 0) (toyLocal 0) (some (toyPeer 1 true ⟨false, []⟩))
      (Message.Other 3) [toyPeer 1 true ⟨false, []⟩, toyPeer 2 true ⟨false, []⟩]).err =
      some "unknown relay message type" :=
  ⟨Or.inr (by decide),
   (Relay_unsupported toyCollab (toyLocal 0) (toyLocal 0) (some (toyPeer 1 true ⟨false, []⟩)) 3
      [toyPeer 1 true ⟨false, []⟩, toyPeer 2 true ⟨false, []⟩] (Or.inr (by decide))).2.1
      (by decide)⟩

/-- C7. For a call of `Relay` that is not suppressed with a block `B`, and every neighbour `n`
of the list other than the originator: the call returns nil; `n` is sent exactly one
inventory with the single entry (block type, `hash(B)`) when its filter is loaded, whatever
its relay flag; otherwise exactly the full block when it is relay-eligible; otherwise
nothing. The receiver, and so the outbound transaction counter, is unchanged. -/
theorem Relay_block (c : Collab Tx Blk F L) (LocalNode self : node Tx Blk F)
    (from' : Option (node Tx Blk F)) (B : Blk)
    (pre post : List (node Tx Blk F)) (n : node Tx Blk F)
    (hns : from' = none ∨ LocalNode.IsSyncHeaders = false)
    (hid : ∀ f, from' = some f → n.ID ≠ f.ID) :
    (Relay c LocalNode self from' (Message.Block B) (pre ++ n :: post)).err = none ∧
    ((Relay c LocalNode self from' (Message.Block B) (pre ++ n :: post)).nbrs[pre.length]?).map
        (fun x => x.sent) =
      some (n.sent ++
        (if c.IsLoaded n.BloomFilter = true then
          [WireMsg.Inventory [⟨InvType.InvTypeBlock, c.blockHash B⟩]]
        else if n.IsRelay = true then [WireMsg.Block B]
        else [])) ∧
    (Relay c LocalNode self from' (Message.Block B) (pre ++ n :: post)).self = self ∧
    (Relay c LocalNode self from' (Message.Block B) (pre ++ n :: post)).self.GetTxnCnt =
      self.GetTxnCnt := by
  have hns' := (relaySuppressed_eq_false_iff LocalNode from').2 hns
  have ho := (notOriginator_iff from' n).2 hid
  have hself : (Relay c LocalNode self from' (Message.Block B) (pre ++ n :: post)).self = self := by
    simp [Relay, hns', relayLoop_block]
  refine ⟨?_, ?_, hself, by rw [hself]⟩
  · simp [Relay, hns', relayLoop_block]
  · rw [Relay_nbrs_mid c LocalNode self from' _ pre post n hns' ho]
    simp [relayNbrTarget_sent, BloomFilter, IsRelay]

/-- Witness for C7: block 5 comes from peer 1; peer 3, with a loaded filter and no relay
flag, is sent the inventory of the block and not the block. -/
theorem Relay_block_witness :
    ((some (toyPeer 1 true ⟨false, []⟩) : Option (node Nat Nat ToyFilter)) = none ∨
      (toyLocal 0).IsSyncHeaders = false) ∧
    ((Relay toyCollab (toyLocal 0) (toyLocal 0) (some (toyPeer 1 true ⟨false, []⟩))
        (Message.Block 5)
        ([toyPeer 1 true ⟨false, []⟩, toyPeer 2 true ⟨false, []⟩] ++
          toyPeer 3 false ⟨true, [7]⟩ :: [])).nbrs[2]?).map (fun x => x.sent) =
      some [WireMsg.Inventory [⟨InvType.InvTypeBlock, 2005⟩]] :=
  ⟨Or.inr (by decide),
   (Relay_block toyCollab (toyLocal 0) (toyLocal 0) (some (toyPeer 1 true ⟨false, []⟩)) 5
      [toyPeer 1 true ⟨false, []⟩, toyPeer 2 true ⟨false, []⟩] [] (toyPeer 3 false ⟨true, [7]⟩)
      (Or.inr (by decide)) (fun f hf => by cases hf; decide)).2.1⟩

theorem mem_zip_map {α β : Type} (g : α → β) (l : List α) (p : α × β)
    (h : p ∈ l.zip (l.map g)) : p.2 = g p.1 := by
  induction l with
  | nil => simp at h
  | cons a rest ih =>
    simp only [List.map_cons, List.zip_cons_cons, List.mem_cons] at h
    rcases h with h | h
    · subst h; rfl
    · exact ih h

/-- The neighbours after a call of `Relay`, in one formula. -/
theorem Relay_nbrs (c : Collab Tx Blk F L) (LocalNode self : node Tx Blk F)
    (from' : Option (node Tx Blk F)) (message : Message Tx Blk) (nbrs : List (node Tx Blk F)) :
    (Relay c LocalNode self from' message nbrs).nbrs =
      nbrs.map (fun n =>
        if relaySuppressed LocalNode from' = true then n
        else if notOriginator from' n = true then relayNbrTarget c message n else n) := by
  by_cases hs : relaySuppressed LocalNode from' = true
  · simp [Relay, hs]
  · simp [Relay, hs, relayLoop_nbrs]

/-- C6, as stated, fails: in a call suppressed by header-sync a neighbour with an id other
than the originator's is not considered for forwarding. Block 5 comes from peer 1 while the
local node is in header-sync; peer 2 has another id and is relay-eligible, so that the switch
would send it the block, and it is left untouched. -/
theorem considers_all_Relay_counterexample :
    (Relay toyCollab (toyLocal 1) (toyLocal 1) (some (toyPeer 1 true ⟨false, []⟩))
      (Message.Block 5) [toyPeer 1 true ⟨false, []⟩, toyPeer 2 true ⟨false, []⟩]).nbrs =
      [toyPeer 1 true ⟨false, []⟩, toyPeer 2 true ⟨false, []⟩] ∧
    relayNbrTarget toyCollab (Message.Block 5) (toyPeer 2 true ⟨false, []⟩) =
      (toyPeer 2 true ⟨false, []⟩).Send (WireMsg.Block 5) ∧
    ¬ (∀ p ∈ List.zip [toyPeer 1 true ⟨false, []⟩, toyPeer 2 true ⟨false, []⟩]
          (Relay toyCollab (toyLocal 1) (toyLocal 1) (some (toyPeer 1 true ⟨false, []⟩))
            (Message.Block 5) [toyPeer 1 true ⟨false, []⟩, toyPeer 2 true ⟨false, []⟩]).nbrs,
        notOriginator (some (toyPeer 1 true ⟨false, []⟩)) p.1 = true →
          p.2 = relayNbrTarget toyCollab (Message.Block 5) p.1) := by
  decide

/-- C6, amended. For every message and every neighbour list, with each neighbour paired with
its state after the call: when `from` is not nil a neighbour whose id equals `from`'s is left
as it was, so nothing is sent to it; every neighbour is sent at most one message in the call;
and, when the call is not suppressed by header-sync, every neighbour with a different id
(every neighbour when `from` is nil) is considered for forwarding, that is, left as the type
switch of the loop leaves it. -/
theorem Relay_neighbours (c : Collab Tx Blk F L) (LocalNode self : node Tx Blk F)
    (from' : Option (node Tx Blk F)) (message : Message Tx Blk) (nbrs : List (node Tx Blk F)) :
    (Relay c LocalNode self from' message nbrs).nbrs.length = nbrs.length ∧
    ∀ p ∈ nbrs.zip (Relay c LocalNode self from' message nbrs).nbrs,
      (∀ f, from' = some f → p.1.ID = f.ID → p.2 = p.1) ∧
      (∃ l, p.2.sent = p.1.sent ++ l ∧ l.length ≤ 1) ∧
      ((from' = none ∨ LocalNode.IsSyncHeaders = false) →
        (∀ f, from' = some f → p.1.ID ≠ f.ID) → p.2 = relayNbrTarget c message p.1) := by
  rw [Relay_nbrs]
  refine ⟨by simp, ?_⟩
  intro p hp
  have hp2 := mem_zip_map _ nbrs p hp
  refine ⟨?_, ?_, ?_⟩
  · intro f hf hid
    have ho : notOriginator from' p.1 = false := by
      subst hf
      simp [notOriginator, hid]
    rw [hp2]
    simp [ho]
  · rw [hp2]
    by_cases hs : relaySuppressed LocalNode from' = true
    · exact ⟨[], by simp [hs], by simp⟩
    · by_cases ho : notOriginator from' p.1 = true
      · simp only [hs, ho, if_true, if_false]
        exact relayNbrTarget_sent_le_one c message p.1
      · exact ⟨[], by simp [hs, ho], by simp⟩
  · intro hns hid
    have hns' := (relaySuppressed_eq_false_iff LocalNode from').2 hns
    have ho := (notOriginator_iff from' p.1).2 hid
    rw [hp2]
    simp [hns', ho]

/-- Witness for C6 amended: transaction 7 comes from peer 1 while the local node is not in
header-sync; peer 1 is sent nothing and peer 2 the transaction. -/
theorem Relay_neighbours_witness :
    (toyPeer 1 true ⟨false, []⟩,
      toyPeer 1 true ⟨false, []⟩) ∈
      List.zip [toyPeer 1 true ⟨false, []⟩, toyPeer 2 true ⟨false, []⟩]
        (Relay toyCollab (toyLocal 0) (toyLocal 0) (some (toyPeer 1 true ⟨false, []⟩))
          (Message.Transaction 7) [toyPeer 1 true ⟨false, []⟩, toyPeer 2 true ⟨false, []⟩]).nbrs ∧
    (toyPeer 2 true ⟨false, []⟩,
      (toyPeer 2 true ⟨false, []⟩).Send (WireMsg.Tx 7)) ∈
      List.zip [toyPeer 1 true ⟨false, []⟩, toyPeer 2 true ⟨false, []⟩]
        (Relay toyCollab (toyLocal 0) (toyLocal 0) (some (toyPeer 1 true ⟨false, []⟩))
          (Message.Transaction 7) [toyPeer 1 true ⟨false, []⟩, toyPeer 2 true ⟨false, []⟩]).nbrs ∧
    (toyPeer 2 true ⟨false, []⟩).Send (WireMsg.Tx 7) =
      relayNbrTarget toyCollab (Message.Transaction 7) (toyPeer 2 true ⟨false, []⟩) :=
  ⟨by decide, by decide,
   ((Relay_neighbours toyCollab (toyLocal 0) (toyLocal 0) (some (toyPeer 1 true ⟨false, []⟩))
      (Message.Transaction 7) [toyPeer 1 true ⟨false, []⟩, toyPeer 2 true ⟨false, []⟩]).2
      (toyPeer 2 true ⟨false, []⟩, (toyPeer 2 true ⟨false, []⟩).Send (WireMsg.Tx 7))
      (by decide)).2.2 (Or.inr (by decide)) (fun f hf => by cases hf; decide)⟩

/-- Of the receiver, the loop of `Relay` writes the counter `txnCnt` only. -/
theorem relayLoop_self_frame (c : Collab Tx Blk F L) (from' : Option (node Tx Blk F))
    (message : Message Tx Blk) (nbrs : List (node Tx Blk F)) :
    ∀ self : node Tx Blk F, ∃ k,
      (relayLoop c from' message self nbrs).self = { self with txnCnt := k } := by
  induction nbrs with
  | nil => intro self; exact ⟨self.txnCnt, rfl⟩
  | cons nbr rest ih =>
    intro self
    by_cases ho : notOriginator from' nbr = true
    · cases message with
      | Transaction t =>
        simp only [relayLoop, ho, if_true, relayNbr_tx]
        by_cases h : (c.IsLoaded nbr.filter && (c.MatchTxAndUpdate nbr.filter t).1) = false ∧
            nbr.relay = true
        · obtain ⟨k, hk⟩ := ih { self with txnCnt := (self.txnCnt + 1) % uint64Mod }
          exact ⟨k, by simp only [h, and_self, if_true, hk]⟩
        · obtain ⟨k, hk⟩ := ih self
          exact ⟨k, by simp only [h, if_false, hk]⟩
      | Block b =>
        obtain ⟨k, hk⟩ := ih self
        exact ⟨k, by simp only [relayLoop, ho, if_true, relayNbr_block, hk]⟩
      | Other tag => exact ⟨self.txnCnt, by simp [relayLoop, ho, relayNbr_other]⟩
    · obtain ⟨k, hk⟩ := ih self
      exact ⟨k, by simp only [relayLoop, ho, hk]; rfl⟩

theorem Relay_self_frame (c : Collab Tx Blk F L) (LocalNode self : node Tx Blk F)
    (from' : Option (node Tx Blk F)) (message : Message Tx Blk) (nbrs : List (node Tx Blk F)) :
    ∃ k, (Relay c LocalNode self from' message nbrs).self = { self with txnCnt := k } := by
  by_cases hs : relaySuppressed LocalNode from' = true
  · exact ⟨self.txnCnt, by simp [Relay, hs]⟩
  · simp only [Relay, hs, if_false]
    exact relayLoop_self_frame c from' message nbrs self

/-- When `WaitForSyncFinish` returns, the local node is as it was or as
`SetSyncHeaders(false)` leaves it. -/
theorem waitLoop_some (LocalNode : node Tx Blk F) (polls : List (Nat × List Nat)) :
    ∀ (k j : Nat) (n' : node Tx Blk F), waitLoop LocalNode polls k = some (j, n') →
      n' = LocalNode.SetSyncHeaders false := by
  induction polls with
  | nil => intro k j n' h; simp [waitLoop] at h
  | cons o rest ih =>
    intro k j n' h
    obtain ⟨bh, hs⟩ := o
    by_cases hc : CompareHeight bh hs > 0
    · simp only [waitLoop, hc, if_true, Option.some.injEq, Prod.mk.injEq] at h
      exact h.2.symm
    · simp only [waitLoop, hc, if_false] at h
      exact ih _ _ _ h

end node

/-! ## The sync flag -/

set_option maxRecDepth 100000 in
theorem flag_lor_one_div (f : Fin 256) : (f ||| 0x01).val / 2 = f.val / 2 := by
  revert f; decide

set_option maxRecDepth 100000 in
theorem flag_land_fe_div (f : Fin 256) : (f &&& 0xFE).val / 2 = f.val / 2 := by
  revert f; decide

set_option maxRecDepth 100000 in
theorem flag_lor_one_bit0 (f : Fin 256) : (f ||| 0x01).val.testBit 0 = true := by
  revert f; decide

set_option maxRecDepth 100000 in
theorem flag_land_fe_bit0 (f : Fin 256) : (f &&& 0xFE).val.testBit 0 = false := by
  revert f; decide

set_option maxRecDepth 100000 in
theorem flag_isSync_bit0 (f : Fin 256) :
    (if (f &&& 0x01) = 0x01 then true else false) = f.val.testBit 0 := by
  revert f; decide

namespace node

variable {Tx Blk F L : Type}

theorem SetSyncHeaders_div (n : node Tx Blk F) (b : Bool) :
    (n.SetSyncHeaders b).syncFlag.val / 2 = n.syncFlag.val / 2 := by
  cases b
  · simp only [SetSyncHeaders, Bool.false_eq_true, if_false]
    exact flag_land_fe_div _
  · simp only [SetSyncHeaders, if_true]
    exact flag_lor_one_div _

theorem SetSyncHeaders_bit0 (n : node Tx Blk F) (b : Bool) :
    (n.SetSyncHeaders b).syncFlag.val.testBit 0 = b := by
  cases b
  · simp only [SetSyncHeaders, Bool.false_eq_true, if_false]
    exact flag_land_fe_bit0 _
  · simp only [SetSyncHeaders, if_true]
    exact flag_lor_one_bit0 _

theorem IsSyncHeaders_eq_bit0 (n : node Tx Blk F) :
    n.IsSyncHeaders = n.syncFlag.val.testBit 0 := flag_isSync_bit0 n.syncFlag

end node

namespace NodeOp

variable {Tx Blk F L : Type}

/-- `AddToConnectingList` writes the registry of the node only, and nothing when it
panics. -/
theorem apply_AddToConnectingList (c : Collab Tx Blk F L) (n : node Tx Blk F) (addr : String) :
    ∃ cn, (NodeOp.AddToConnectingList addr : NodeOp Tx Blk F L).apply c n =
      { n with ConnectingNodes := cn } := by
  simp only [apply, node.AddToConnectingList]
  cases n.ConnectingNodes.add addr with
  | none => exact ⟨n.ConnectingNodes, rfl⟩
  | some r => exact ⟨r.2, rfl⟩

/-- `AddRequestedBlock` writes the ledger of the node only, and nothing when it panics. -/
theorem apply_AddRequestedBlock (c : Collab Tx Blk F L) (n : node Tx Blk F) (hash : Uint256)
    (now : Time) :
    (NodeOp.AddRequestedBlock hash now : NodeOp Tx Blk F L).apply c n =
      match GoMap.set n.RequestedBlockList hash now with
      | some l => { n with RequestedBlockList := l }
      | none => n := by
  simp only [apply, node.AddRequestedBlock]
  cases GoMap.set n.RequestedBlockList hash now <;> rfl

/-- No call of the file writes bit 1 or a higher bit of the sync flag. -/
theorem apply_syncFlag_div (c : Collab Tx Blk F L) (n : node Tx Blk F) (op : NodeOp Tx Blk F L) :
    (op.apply c n).syncFlag.val / 2 = n.syncFlag.val / 2 := by
  cases op with
  | WaitForSyncFinish seedListLen polls =>
    simp only [apply, node.WaitForSyncFinish]
    by_cases h0 : seedListLen ≤ 0
    · simp [h0]
    · simp only [h0, if_false]
      cases hw : node.waitLoop n polls 0 with
      | none => rfl
      | some r =>
        obtain ⟨j, n'⟩ := r
        rw [node.waitLoop_some n polls 0 j n' hw]
        exact node.SetSyncHeaders_div n false
  | Relay LocalNode from' message nbrs =>
    obtain ⟨k, hk⟩ := node.Relay_self_frame c LocalNode n from' message nbrs
    simp only [apply, hk]
  | SetSyncHeaders b => exact node.SetSyncHeaders_div n b
  | AddToConnectingList addr =>
    obtain ⟨cn, hcn⟩ := apply_AddToConnectingList c n addr
    rw [hcn]
  | AddRequestedBlock hash now =>
    rw [apply_AddRequestedBlock]
    cases GoMap.set n.RequestedBlockList hash now <;> rfl
  | AcqSyncBlkReqSem =>
    simp only [apply, node.AcqSyncBlkReqSem]
    cases n.SyncBlkReqSem.acquire <;> rfl
  | RelSyncBlkReqSem =>
    simp only [apply, node.RelSyncBlkReqSem]
    cases n.SyncBlkReqSem.release <;> rfl
  | DeleteRequestedBlock hash =>
    simp only [apply, node.DeleteRequestedBlock]
    split <;> rfl
  | _ => rfl

/-- The id after a call: the nonce after `UpdateInfo`, the id before after any other. -/
theorem apply_id (c : Collab Tx Blk F L) (n : node Tx Blk F) (op : NodeOp Tx Blk F L) :
    (op.apply c n).id = (match updateInfoNonce op with
      | some nonce => nonce
      | none => n.id) := by
  cases op with
  | WaitForSyncFinish seedListLen polls =>
    simp only [apply, node.WaitForSyncFinish, updateInfoNonce]
    by_cases h0 : seedListLen ≤ 0
    · simp [h0]
    · simp only [h0, if_false]
      cases hw : node.waitLoop n polls 0 with
      | none => rfl
      | some r =>
        obtain ⟨j, n'⟩ := r
        rw [node.waitLoop_some n polls 0 j n' hw]
        simp only [node.SetSyncHeaders]
        split <;> rfl
  | Relay LocalNode from' message nbrs =>
    obtain ⟨k, hk⟩ := node.Relay_self_frame c LocalNode n from' message nbrs
    simp only [apply, hk, updateInfoNonce]
  | SetSyncHeaders b =>
    simp only [apply, node.SetSyncHeaders, updateInfoNonce]
    split <;> rfl
  | AddToConnectingList addr =>
    obtain ⟨cn, hcn⟩ := apply_AddToConnectingList c n addr
    rw [hcn]
    rfl
  | AddRequestedBlock hash now =>
    rw [apply_AddRequestedBlock]
    cases GoMap.set n.RequestedBlockList hash now <;> rfl
  | AcqSyncBlkReqSem =>
    simp only [apply, node.AcqSyncBlkReqSem, updateInfoNonce]
    cases n.SyncBlkReqSem.acquire <;> rfl
  | RelSyncBlkReqSem =>
    simp only [apply, node.RelSyncBlkReqSem, updateInfoNonce]
    cases n.SyncBlkReqSem.release <;> rfl
  | DeleteRequestedBlock hash =>
    simp only [apply, node.DeleteRequestedBlock, updateInfoNonce]
    split <;> rfl
  | _ => rfl

end NodeOp

namespace node

variable {Tx Blk F L : Type}

/-- The ids of the neighbours are not written by `Relay`. -/
theorem Relay_nbrs_id (c : Collab Tx Blk F L) (LocalNode self : node Tx Blk F)
    (from' : Option (node Tx Blk F)) (message : Message Tx Blk) (nbrs : List (node Tx Blk F)) :
    (Relay c LocalNode self from' message nbrs).nbrs.map ID = nbrs.map ID := by
  rw [Relay_nbrs, List.map_map]
  apply List.map_congr_left
  intro n _
  simp only [Function.comp, ID]
  split
  · rfl
  · split
    · exact relayNbrTarget_id c message n
    · rfl

/-- On a made ledger `AddRequestedBlock` returns, with the entry written. -/
theorem AddRequestedBlock_made (n : node Tx Blk F) (es : Entries Uint256 Time)
    (hl : n.RequestedBlockList = GoMap.made es) (h : Uint256) (now : Time) :
    n.AddRequestedBlock h now =
      some { n with RequestedBlockList := GoMap.made (Entries.set es h now) } := by
  simp [AddRequestedBlock, hl, GoMap.set]

/-- On a nil ledger `AddRequestedBlock` panics. -/
theorem AddRequestedBlock_nil (n : node Tx Blk F) (hl : n.RequestedBlockList = GoMap.nil)
    (h : Uint256) (now : Time) : n.AddRequestedBlock h now = none := by
  simp [AddRequestedBlock, hl, GoMap.set]

/-- C8, as stated, fails: on a node that only went through `NewNode`, whose ledger is the nil
map, `AddRequestedBlock(h)` panics at the assignment of line 417, and `IsRequestedBlock(h)`
is false before and after the call. -/
theorem AddRequestedBlock_on_nil_ledger_counterexample :
    (toyPeer 1 true ⟨false, []⟩).AddRequestedBlock 5 10 = none ∧
    (toyPeer 1 true ⟨false, []⟩).IsRequestedBlock 5 = false ∧
    ((NodeOp.AddRequestedBlock 5 10 : NodeOp Nat Nat ToyFilter (List Nat)).apply toyCollab
      (toyPeer 1 true ⟨false, []⟩)).IsRequestedBlock 5 = false := by
  decide

/-- C8, amended. For every hash `h` and every node `n` whose ledger was made (by
`InitLocalNode` or by `ResetRequestedBlock`), `AddRequestedBlock(h)` returns and
`IsRequestedBlock(h)` is true after it. For every node `m`, its ledger nil or made, after
`ResetRequestedBlock()` the call `IsRequestedBlock(h')` is false for every hash `h'`, so for
a hash added before the reset, and the ledger is a made one, on which `AddRequestedBlock`
returns. On a nil ledger `AddRequestedBlock` panics. -/
theorem RequestedBlock_add_then_reset (n m : node Tx Blk F) (h h' : Uint256) (now : Time)
    (hmade : n.RequestedBlockList ≠ GoMap.nil) :
    (∃ n', n.AddRequestedBlock h now = some n' ∧ n'.IsRequestedBlock h = true) ∧
    m.ResetRequestedBlock.IsRequestedBlock h' = false ∧
    (∀ n', n.AddRequestedBlock h now = some n' →
      n'.ResetRequestedBlock.IsRequestedBlock h = false) ∧
    (∃ m', m.ResetRequestedBlock.AddRequestedBlock h now = some m' ∧
      m'.IsRequestedBlock h = true) ∧
    (m.RequestedBlockList = GoMap.nil → m.AddRequestedBlock h now = none) := by
  refine ⟨?_, rfl, fun _ _ => rfl, ?_, ?_⟩
  · cases hl : n.RequestedBlockList with
    | nil => exact absurd hl hmade
    | made es =>
      refine ⟨_, AddRequestedBlock_made n es hl h now, ?_⟩
      simp only [IsRequestedBlock]
      exact GoMap.contains_set_self (GoMap.set_made es h now)
  · refine ⟨_, AddRequestedBlock_made m.ResetRequestedBlock [] rfl h now, ?_⟩
    simp only [IsRequestedBlock]
    exact GoMap.contains_set_self (GoMap.set_made [] h now)
  · intro hnil
    exact AddRequestedBlock_nil m hnil h now

/-- Witness for C8 amended: on the local node `InitLocalNode` makes, hash 5 is requested after
`AddRequestedBlock`. -/
theorem RequestedBlock_add_then_reset_witness :
    (toyLocal 0).RequestedBlockList ≠ GoMap.nil ∧
    (∃ n', (toyLocal 0).AddRequestedBlock 5 10 = some n' ∧ n'.IsRequestedBlock 5 = true) :=
  ⟨by decide,
   (RequestedBlock_add_then_reset (toyLocal 0) (toyPeer 1 true ⟨false, []⟩) 5 6 10
      (by decide)).1⟩

/-- C9. For every value of the sync flag and every boolean `b`, `SetSyncHeaders(b)` leaves
bit 1 and every higher bit of the flag as it was (the flag without its bit 0 is the same
number), and bit 0 becomes `b`. Conversely no call of the file writes bit 1, the syncFailed
bit, or a higher bit, so that no call sets the syncFailed bit and alters bit 0. -/
theorem SetSyncHeaders_only_bit0 (c : Collab Tx Blk F L) (n : node Tx Blk F) (b : Bool)
    (op : NodeOp Tx Blk F L) (i : Nat) :
    (n.SetSyncHeaders b).syncFlag.val.testBit (i + 1) = n.syncFlag.val.testBit (i + 1) ∧
    (n.SetSyncHeaders b).syncFlag.val / 2 = n.syncFlag.val / 2 ∧
    (n.SetSyncHeaders b).syncFlag.val.testBit 0 = b ∧
    (n.SetSyncHeaders b).IsSyncHeaders = b ∧
    (op.apply c n).syncFlag.val.testBit (i + 1) = n.syncFlag.val.testBit (i + 1) ∧
    ¬ ((n.syncFlag.val.testBit 1 = false ∧ (op.apply c n).syncFlag.val.testBit 1 = true) ∧
        (op.apply c n).syncFlag.val.testBit 0 ≠ n.syncFlag.val.testBit 0) := by
  have hop : ∀ j, (op.apply c n).syncFlag.val.testBit (j + 1) = n.syncFlag.val.testBit (j + 1) := by
    intro j
    rw [Nat.testBit_succ, Nat.testBit_succ, NodeOp.apply_syncFlag_div]
  refine ⟨?_, SetSyncHeaders_div n b, SetSyncHeaders_bit0 n b, ?_, hop i, ?_⟩
  · rw [Nat.testBit_succ, Nat.testBit_succ, SetSyncHeaders_div]
  · rw [IsSyncHeaders_eq_bit0, SetSyncHeaders_bit0]
  · rintro ⟨⟨h₀, h₁⟩, _⟩
    rw [hop 0, h₀] at h₁
    exact Bool.noConfusion h₁

/-- C10, as stated, fails: `UpdateInfo` with nonce 42 on a node of id 7 leaves `ID()` at 42. -/
theorem ID_immutable_counterexample :
    (toyPeer 7 true ⟨false, []⟩).ID = 7 ∧
    ((toyPeer 7 true ⟨false, []⟩).UpdateInfo 1000 1 0 20338 42 1 100).ID = 42 ∧
    ((NodeOp.UpdateInfo 1000 1 0 20338 42 1 100 : NodeOp Nat Nat ToyFilter (List Nat)).apply
        toyCollab (toyPeer 7 true ⟨false, []⟩)).ID ≠ (toyPeer 7 true ⟨false, []⟩).ID := by
  decide

/-- C10, amended. The id of a node is written by `UpdateInfo` only, which sets it to its
nonce argument: after every other call of the file (`SetHeight`, `SetSyncHeaders`, the ledger
and registry calls, `Relay`, `WaitForSyncFinish`, ...) `ID()` returns what it returned
before, and after `UpdateInfo` it returns the nonce. `Relay` leaves the id of every
neighbour as it was too. -/
theorem ID_after_call (c : Collab Tx Blk F L) (n : node Tx Blk F) (op : NodeOp Tx Blk F L)
    (LocalNode : node Tx Blk F) (from' : Option (node Tx Blk F)) (message : Message Tx Blk)
    (nbrs : List (node Tx Blk F)) :
    (op.apply c n).ID = (match NodeOp.updateInfoNonce op with
      | some nonce => nonce
      | none => n.ID) ∧
    (Relay c LocalNode n from' message nbrs).self.ID = n.ID ∧
    (Relay c LocalNode n from' message nbrs).nbrs.map ID = nbrs.map ID := by
  refine ⟨NodeOp.apply_id c n op, ?_, Relay_nbrs_id c LocalNode n from' message nbrs⟩
  exact NodeOp.apply_id c n (NodeOp.Relay LocalNode from' message nbrs)

end node

/-! ## needSync -/

/-- C11. For every local chain height and every list of neighbour heights, `needSync` is true
exactly when some neighbour height strictly exceeds the local height; equal heights do not
count: local 100 with neighbours [100, 100] gives false, with [100, 150] true, and with no
neighbours it gives false. -/
theorem needSync_spec (BlockHeight : Nat) (heights : List Nat) :
    (node.needSync BlockHeight heights = true ↔ ∃ h ∈ heights, BlockHeight < h) ∧
    (node.needSync BlockHeight heights = false ↔ ∀ h ∈ heights, h ≤ BlockHeight) ∧
    node.needSync 100 [100, 100] = false ∧
    node.needSync 100 [100, 150] = true ∧
    node.needSync BlockHeight [] = false := by
  refine ⟨?_, ?_, by decide, by decide, ?_⟩
  · unfold node.needSync
    rw [CompareHeight_eq]
    by_cases h : ∃ h ∈ heights, BlockHeight < h <;> simp [h]
  · unfold node.needSync
    rw [CompareHeight_eq]
    by_cases h : ∃ h ∈ heights, BlockHeight < h
    · simp only [h, if_true]
      obtain ⟨x, hx, hlt⟩ := h
      constructor
      · intro hf; simp at hf
      · intro hall; exact absurd (hall x hx) (by omega)
    · simp only [h, if_false]
      constructor
      · intro _ x hx
        by_contra hgt
        exact h ⟨x, hx, by omega⟩
      · intro _; simp
  · simp [node.needSync, CompareHeight]

/-! ## ConnectingNodes.del -/

/-- C12. For every address `a` and every registry, its map nil or made, `del a` is a total
call with no error result and no panic; afterwards `a` is not in the registry, so that the
next `add a`, which needs a made registry to return at all, returns true; the membership of
every other address `b` is as before; and when `a` was absent the registry is left exactly as
it was. `RemoveFromConnectingList` does to the node's registry what `del` does. -/
theorem ConnectingNodes_del_spec (cn : ConnectingNodes) (a b : String) :
    GoMap.contains (cn.del a).List a = false ∧
    (cn.List ≠ GoMap.nil → ∃ cn', (cn.del a).add a = some (true, cn')) ∧
    (b ≠ a → GoMap.contains (cn.del a).List b = GoMap.contains cn.List b) ∧
    (GoMap.contains cn.List a = false → cn.del a = cn) ∧
    (∀ n : node Unit Unit Unit,
      (n.RemoveFromConnectingList a).ConnectingNodes = n.ConnectingNodes.del a) := by
  refine ⟨del_contains_self cn a, ?_, ?_, ?_, fun _ => rfl⟩
  · intro hmade
    obtain ⟨l⟩ := cn
    cases l with
    | nil => exact absurd rfl hmade
    | made es =>
      rw [del_made, add_made, Entries.assoc_contains_delete_self]
      exact ⟨_, rfl⟩
  · intro hne
    exact del_contains_other cn a b (Ne.symm hne)
  · intro habs
    cases cn with
    | mk l =>
      simp only [ConnectingNodes.del]
      rw [GoMap.delete_of_not_contains l a habs]

/-- Witness for C12: deleting "a" from the registry of "a" and "b" leaves "b" in it, and
deleting the absent "c" leaves the registry as it was. -/
theorem ConnectingNodes_del_spec_witness :
    GoMap.contains ((ConnectingNodes.mk (GoMap.made [("a", ()), ("b", ())])).del "a").List "b" = true ∧
    GoMap.contains (ConnectingNodes.mk (GoMap.made [("a", ()), ("b", ())])).List "c" = false ∧
    (ConnectingNodes.mk (GoMap.made [("a", ()), ("b", ())])).del "c" =
      ConnectingNodes.mk (GoMap.made [("a", ()), ("b", ())]) :=
  ⟨((ConnectingNodes_del_spec (ConnectingNodes.mk (GoMap.made [("a", ()), ("b", ())])) "a" "b").2.2.1
      (by decide)).trans (by decide),
   by decide,
   (ConnectingNodes_del_spec (ConnectingNodes.mk (GoMap.made [("a", ()), ("b", ())])) "c" "b").2.2.2.1
      (by decide)⟩

/-! ## Relay of self-originated messages -/

namespace node

variable {Tx Blk F L : Type}

/-- The loop of `Relay` reads of the receiver the counter `txnCnt` only: from two receivers
with the same counter it returns the same error, leaves the same neighbours and the same
counter. -/
theorem relayLoop_congr_txnCnt (c : Collab Tx Blk F L) (from' : Option (node Tx Blk F))
    (message : Message Tx Blk) (nbrs : List (node Tx Blk F)) :
    ∀ self₁ self₂ : node Tx Blk F, self₁.txnCnt = self₂.txnCnt →
      (relayLoop c from' message self₁ nbrs).err = (relayLoop c from' message self₂ nbrs).err ∧
      (relayLoop c from' message self₁ nbrs).nbrs = (relayLoop c from' message self₂ nbrs).nbrs ∧
      (relayLoop c from' message self₁ nbrs).self.txnCnt =
        (relayLoop c from' message self₂ nbrs).self.txnCnt := by
  induction nbrs with
  | nil => intro self₁ self₂ h; exact ⟨rfl, rfl, h⟩
  | cons nbr rest ih =>
    intro self₁ self₂ h
    by_cases ho : notOriginator from' nbr = true
    · cases message with
      | Transaction t =>
        by_cases hc : (c.IsLoaded nbr.filter && (c.MatchTxAndUpdate nbr.filter t).1) = false ∧
            nbr.relay = true
        · have := ih { self₁ with txnCnt := (self₁.txnCnt + 1) % uint64Mod }
            { self₂ with txnCnt := (self₂.txnCnt + 1) % uint64Mod } (by simp [h])
          simp only [relayLoop, ho, if_true, relayNbr_tx, if_pos hc]
          exact ⟨this.1, by rw [this.2.1], this.2.2⟩
        · have := ih self₁ self₂ h
          simp only [relayLoop, ho, if_true, relayNbr_tx, if_neg hc]
          exact ⟨this.1, by rw [this.2.1], this.2.2⟩
      | Block b =>
        have := ih self₁ self₂ h
        simpa [relayLoop, ho, relayNbr_block] using this
      | Other tag => simp [relayLoop, ho, relayNbr_other, h]
    · have := ih self₁ self₂ h
      simpa [relayLoop, ho] using this

theorem SetSyncHeaders_txnCnt (n : node Tx Blk F) (b : Bool) :
    (n.SetSyncHeaders b).txnCnt = n.txnCnt := by
  cases b <;> rfl

/-- C13. Self-originated messages always propagate: when `from` is nil, what `Relay` returns
(the error, the receiver with its counter, every neighbour with the messages sent to it) is
the same for every state of the local node, so the same whether its header-sync bit is set or
clear; and when the receiver is the local node itself, the error, the neighbours and the
counter after the call are the same with the bit set and with the bit clear. -/
theorem Relay_self_originated (c : Collab Tx Blk F L) (LocalNode LocalNode' self : node Tx Blk F)
    (message : Message Tx Blk) (nbrs : List (node Tx Blk F)) :
    Relay c LocalNode self none message nbrs = Relay c LocalNode' self none message nbrs ∧
    Relay c (LocalNode.SetSyncHeaders true) self none message nbrs =
      Relay c (LocalNode.SetSyncHeaders false) self none message nbrs ∧
    (Relay c (self.SetSyncHeaders true) (self.SetSyncHeaders true) none message nbrs).err =
      (Relay c (self.SetSyncHeaders false) (self.SetSyncHeaders false) none message nbrs).err ∧
    (Relay c (self.SetSyncHeaders true) (self.SetSyncHeaders true) none message nbrs).nbrs =
      (Relay c (self.SetSyncHeaders false) (self.SetSyncHeaders false) none message nbrs).nbrs ∧
    (Relay c (self.SetSyncHeaders true) (self.SetSyncHeaders true) none message nbrs).self.GetTxnCnt =
      (Relay c (self.SetSyncHeaders false) (self.SetSyncHeaders false) none message nbrs).self.GetTxnCnt := by
  have hcongr := relayLoop_congr_txnCnt c none message nbrs (self.SetSyncHeaders true)
    (self.SetSyncHeaders false) (by rw [SetSyncHeaders_txnCnt, SetSyncHeaders_txnCnt])
  refine ⟨?_, ?_, ?_, ?_, ?_⟩
  · simp [Relay, relaySuppressed]
  · simp [Relay, relaySuppressed]
  · simpa [Relay, relaySuppressed] using hcongr.1
  · simpa [Relay, relaySuppressed] using hcongr.2.1
  · simpa [Relay, relaySuppressed, GetTxnCnt] using hcongr.2.2

/-! ## Round trip of the header-sync flag -/

end node

set_option maxRecDepth 100000 in
theorem flag_round_trip (f : Fin 256) (h : f.val.testBit 0 = false) :
    ((f ||| 0x01) &&& 0xFE) = f := by
  revert f; decide

namespace node

variable {Tx Blk F L : Type}

/-- C14. For every flag byte whose bit 0 is clear, `SetSyncHeaders(true)` followed by
`SetSyncHeaders(false)` gives back exactly the original byte (and the original node);
`IsSyncHeaders` is true after the first call and false after the second. -/
theorem SetSyncHeaders_round_trip (n : node Tx Blk F) (h : n.syncFlag.val.testBit 0 = false) :
    ((n.SetSyncHeaders true).SetSyncHeaders false).syncFlag = n.syncFlag ∧
    (n.SetSyncHeaders true).SetSyncHeaders false = n ∧
    (n.SetSyncHeaders true).IsSyncHeaders = true ∧
    ((n.SetSyncHeaders true).SetSyncHeaders false).IsSyncHeaders = false := by
  have hflag : ((n.SetSyncHeaders true).SetSyncHeaders false).syncFlag = n.syncFlag := by
    simp only [SetSyncHeaders, if_true, Bool.false_eq_true, if_false]
    exact flag_round_trip n.syncFlag h
  refine ⟨hflag, ?_, ?_, ?_⟩
  · cases n
    simp only [SetSyncHeaders, if_true, Bool.false_eq_true, if_false] at hflag ⊢
    simp only [hflag]
  · rw [IsSyncHeaders_eq_bit0, SetSyncHeaders_bit0]
  · rw [IsSyncHeaders_eq_bit0, SetSyncHeaders_bit0]

/-- Witness for C14: on the flag 2 (syncFailed set, header-sync clear) the round trip gives
back 2. -/
theorem SetSyncHeaders_round_trip_witness :
    (toyLocal 2).syncFlag.val.testBit 0 = false ∧
    (((toyLocal 2).SetSyncHeaders true).SetSyncHeaders false).syncFlag = 2 ∧
    ((toyLocal 2).SetSyncHeaders true).syncFlag = 3 :=
  ⟨by decide, (SetSyncHeaders_round_trip (toyLocal 2) (by decide)).1, by decide⟩

/-! ## UpdateInfo -/

/-- C15. For all arguments, `UpdateInfo(t, version, services, port, nonce, relay, height)`
sets the last-active time to `t`, the id to `nonce`, and version, services, port and height
to the given values; the relay flag is false exactly when the relay byte is 0 and true for
every other byte; every other field of the node (sync flag, transaction counters,
requested-block ledger, connecting set, start and stop hashes, and the rest) is as before. -/
theorem UpdateInfo_spec (n : node Tx Blk F) (t : Time)
    (version services port nonce relay height : Nat) :
    (n.UpdateInfo t version services port nonce relay height).lastActive = t ∧
    (n.UpdateInfo t version services port nonce relay height).ID = nonce ∧
    (n.UpdateInfo t version services port nonce relay height).version = version ∧
    (n.UpdateInfo t version services port nonce relay height).services = services ∧
    (n.UpdateInfo t version services port nonce relay height).Port = port ∧
    (n.UpdateInfo t version services port nonce relay height).Height = height ∧
    ((n.UpdateInfo t version services port nonce relay height).IsRelay = false ↔ relay = 0) ∧
    ((n.UpdateInfo t version services port nonce relay height).IsRelay = true ↔ relay ≠ 0) ∧
    (n.UpdateInfo t version services port nonce relay height).external = n.external ∧
    (n.UpdateInfo t version services port nonce relay height).txnCnt = n.txnCnt ∧
    (n.UpdateInfo t version services port nonce relay height).rxTxnCnt = n.rxTxnCnt ∧
    (n.UpdateInfo t version services port nonce relay height).addr = n.addr ∧
    (n.UpdateInfo t version services port nonce relay height).httpInfoPort = n.httpInfoPort ∧
    (n.UpdateInfo t version services port nonce relay height).sent = n.sent ∧
    (n.UpdateInfo t version services port nonce relay height).filter = n.filter ∧
    (n.UpdateInfo t version services port nonce relay height).syncFlag = n.syncFlag ∧
    (n.UpdateInfo t version services port nonce relay height).ConnectingNodes = n.ConnectingNodes ∧
    (n.UpdateInfo t version services port nonce relay height).DefaultMaxPeers = n.DefaultMaxPeers ∧
    (n.UpdateInfo t version services port nonce relay height).headerFirstMode = n.headerFirstMode ∧
    (n.UpdateInfo t version services port nonce relay height).RequestedBlockList = n.RequestedBlockList ∧
    (n.UpdateInfo t version services port nonce relay height).SyncBlkReqSem = n.SyncBlkReqSem ∧
    (n.UpdateInfo t version services port nonce relay height).StartHash = n.StartHash ∧
    (n.UpdateInfo t version services port nonce relay height).StopHash = n.StopHash := by
  refine ⟨rfl, rfl, rfl, rfl, rfl, rfl, ?_, ?_, rfl, rfl, rfl, rfl, rfl, rfl, rfl, rfl, rfl, rfl,
    rfl, rfl, rfl, rfl, rfl⟩
  · by_cases h : relay = 0 <;> simp [UpdateInfo, IsRelay, h]
  · by_cases h : relay = 0 <;> simp [UpdateInfo, IsRelay, h]

/-! ## The requested-block ledger -/

/-- C16. For every hash `h` and every ledger state, `DeleteRequestedBlock(h)` leaves the
node, and so the ledger, exactly as it was when `h` is absent; in every case
`IsRequestedBlock(h)` is false afterwards, and every other hash `h'` keeps its membership and
its timestamp. -/
theorem DeleteRequestedBlock_spec (n : node Tx Blk F) (h h' : Uint256) :
    (n.IsRequestedBlock h = false → n.DeleteRequestedBlock h = n) ∧
    (n.DeleteRequestedBlock h).IsRequestedBlock h = false ∧
    (h' ≠ h →
      (n.DeleteRequestedBlock h).IsRequestedBlock h' = n.IsRequestedBlock h' ∧
      GoMap.get? (n.DeleteRequestedBlock h).GetRequestBlockList h' =
        GoMap.get? n.GetRequestBlockList h') := by
  refine ⟨?_, ?_, ?_⟩
  · intro habs
    simp only [IsRequestedBlock] at habs
    simp [DeleteRequestedBlock, habs]
  · by_cases hc : GoMap.contains n.RequestedBlockList h = true
    · simp [DeleteRequestedBlock, IsRequestedBlock, hc, GoMap.contains_delete_self]
    · simp only [Bool.not_eq_true] at hc
      simp [DeleteRequestedBlock, IsRequestedBlock, hc]
  · intro hne
    by_cases hc : GoMap.contains n.RequestedBlockList h = true
    · simp [DeleteRequestedBlock, IsRequestedBlock, GetRequestBlockList, hc,
        GoMap.contains_delete_other _ h h' (Ne.symm hne),
        GoMap.get?_delete_other _ h h' (Ne.symm hne)]
    · simp only [Bool.not_eq_true] at hc
      simp [DeleteRequestedBlock, IsRequestedBlock, GetRequestBlockList, hc]

/-- Witness for C16: with hashes 5 and 6 requested at times 10 and 11, deleting 5 leaves 6
with its time 11, and deleting the absent 7 leaves the node as it was. -/
theorem DeleteRequestedBlock_spec_witness :
    GoMap.get? (({ toyLocal 0 with RequestedBlockList := GoMap.made [(5, 10), (6, 11)] } :
        node Nat Nat ToyFilter).DeleteRequestedBlock
      5).GetRequestBlockList 6 = some 11 ∧
    ({ toyLocal 0 with RequestedBlockList := GoMap.made [(5, 10), (6, 11)] } :
        node Nat Nat ToyFilter).IsRequestedBlock 7 = false ∧
    ({ toyLocal 0 with RequestedBlockList := GoMap.made [(5, 10), (6, 11)] } :
        node Nat Nat ToyFilter).DeleteRequestedBlock 7 =
      ({ toyLocal 0 with RequestedBlockList := GoMap.made [(5, 10), (6, 11)] } :
        node Nat Nat ToyFilter) :=
  ⟨(((DeleteRequestedBlock_spec
      ({ toyLocal 0 with RequestedBlockList := GoMap.made [(5, 10), (6, 11)] } :
        node Nat Nat ToyFilter)
      5 6).2.2 (by decide)).2).trans (by decide),
   by decide,
   (DeleteRequestedBlock_spec
      ({ toyLocal 0 with RequestedBlockList := GoMap.made [(5, 10), (6, 11)] } :
        node Nat Nat ToyFilter)
      7 6).1 (by decide)⟩

end node

namespace NodeOp

variable {Tx Blk F L : Type}

/-- Every call of the file keeps the hashes of the ledger distinct. -/
theorem apply_ledger_nodup (c : Collab Tx Blk F L) (n : node Tx Blk F) (op : NodeOp Tx Blk F L)
    (h : (GoMap.keys n.RequestedBlockList).Nodup) :
    (GoMap.keys (op.apply c n).RequestedBlockList).Nodup := by
  cases op with
  | WaitForSyncFinish seedListLen polls =>
    simp only [apply, node.WaitForSyncFinish]
    by_cases h0 : seedListLen ≤ 0
    · simpa [h0] using h
    · simp only [h0, if_false]
      cases hw : node.waitLoop n polls 0 with
      | none => exact h
      | some r =>
        obtain ⟨j, n'⟩ := r
        rw [node.waitLoop_some n polls 0 j n' hw]
        simp only [node.SetSyncHeaders]
        split <;> exact h
  | Relay LocalNode from' message nbrs =>
    obtain ⟨k, hk⟩ := node.Relay_self_frame c LocalNode n from' message nbrs
    simp only [apply, hk]
    exact h
  | SetSyncHeaders b =>
    simp only [apply, node.SetSyncHeaders]
    split <;> exact h
  | AcqSyncBlkReqSem =>
    simp only [apply, node.AcqSyncBlkReqSem]
    cases n.SyncBlkReqSem.acquire <;> exact h
  | RelSyncBlkReqSem =>
    simp only [apply, node.RelSyncBlkReqSem]
    cases n.SyncBlkReqSem.release <;> exact h
  | AddRequestedBlock hash now =>
    rw [apply_AddRequestedBlock]
    cases hset : GoMap.set n.RequestedBlockList hash now with
    | none => exact h
    | some l => exact GoMap.nodup_keys_set hset h
  | AddToConnectingList addr =>
    obtain ⟨cn, hcn⟩ := apply_AddToConnectingList c n addr
    rw [hcn]
    exact h
  | ResetRequestedBlock =>
    simp [apply, node.ResetRequestedBlock, GoMap.empty, GoMap.keys, GoMap.entries, Entries.keys]
  | DeleteRequestedBlock hash =>
    simp only [apply, node.DeleteRequestedBlock]
    split
    · exact h
    · exact GoMap.nodup_keys_delete _ hash h
  | _ => exact h

theorem run_ledger_nodup (c : Collab Tx Blk F L) (ops : List (NodeOp Tx Blk F L)) :
    ∀ n : node Tx Blk F, (GoMap.keys n.RequestedBlockList).Nodup →
      (GoMap.keys (run c n ops).RequestedBlockList).Nodup := by
  induction ops with
  | nil => intro n h; exact h
  | cons op rest ih =>
    intro n h
    exact ih _ (apply_ledger_nodup c n op h)

end NodeOp

namespace node

variable {Tx Blk F L : Type}

/-- C17, as stated, fails: on a node that only went through `NewNode`, whose ledger is the
nil map, `AddRequestedBlock(5)` at clock reading 10 panics, and the snapshot of the ledger
does not map 5 to 10: it has no entry for 5. -/
theorem AddRequestedBlock_snapshot_counterexample :
    (toyPeer 1 true ⟨false, []⟩).AddRequestedBlock 5 10 = none ∧
    GoMap.get? ((NodeOp.AddRequestedBlock 5 10 : NodeOp Nat Nat ToyFilter (List Nat)).apply
      toyCollab (toyPeer 1 true ⟨false, []⟩)).GetRequestBlockList 5 = none ∧
    GoMap.get? ((NodeOp.AddRequestedBlock 5 10 : NodeOp Nat Nat ToyFilter (List Nat)).apply
      toyCollab (toyPeer 1 true ⟨false, []⟩)).GetRequestBlockList 5 ≠ some 10 := by
  decide

/-- C17, amended. For every hash `h` and every node whose ledger was made (by `InitLocalNode`
or by `ResetRequestedBlock`), `AddRequestedBlock(h)` at clock reading `t` returns and leaves
the ledger snapshot mapping `h` to `t`, whether or not `h` was there (an earlier timestamp
`t₀` of `h` is overwritten), leaves the entry of every other hash `h'` as it was, and keeps
the hashes of the ledger distinct. The ledger never holds two entries for one hash: every
sequence of calls from the local node `InitLocalNode` makes leaves its hashes distinct. On a
nil ledger `AddRequestedBlock` panics. -/
theorem AddRequestedBlock_spec (c : Collab Tx Blk F L) (n : node Tx Blk F) (h h' : Uint256)
    (t t₀ : Time) (ops : List (NodeOp Tx Blk F L)) (filter : F)
    (ProtocolVersion MaxSyncHdrReq NodePort OpenService idFromClock : Nat)
    (OpenServiceEnabled : Bool)
    (hmade : n.RequestedBlockList ≠ GoMap.nil) :
    (∃ n', n.AddRequestedBlock h t = some n' ∧
      GoMap.get? n'.GetRequestBlockList h = some t ∧
      (h' ≠ h → GoMap.get? n'.GetRequestBlockList h' = GoMap.get? n.GetRequestBlockList h') ∧
      ((GoMap.keys n.GetRequestBlockList).Nodup → (GoMap.keys n'.GetRequestBlockList).Nodup) ∧
      n'.GetRequestBlockList ≠ GoMap.nil) ∧
    (∃ n₁ n₂, n.AddRequestedBlock h t₀ = some n₁ ∧ n₁.AddRequestedBlock h t = some n₂ ∧
      GoMap.get? n₂.GetRequestBlockList h = some t) ∧
    (GoMap.keys (NodeOp.run c
      (InitLocalNode filter ProtocolVersion MaxSyncHdrReq NodePort OpenServiceEnabled
        OpenService idFromClock) ops).GetRequestBlockList).Nodup ∧
    (∀ m : node Tx Blk F, m.RequestedBlockList = GoMap.nil → m.AddRequestedBlock h t = none) := by
  cases hl : n.RequestedBlockList with
  | nil => exact absurd hl hmade
  | made es =>
    refine ⟨?_, ?_, ?_, ?_⟩
    · refine ⟨_, AddRequestedBlock_made n es hl h t, ?_, ?_, ?_, ?_⟩
      · exact GoMap.get?_set_self (GoMap.set_made es h t)
      · intro hne
        simp only [GetRequestBlockList, hl]
        exact GoMap.get?_set_other (GoMap.set_made es h t) h' (Ne.symm hne)
      · intro hnd
        simp only [GetRequestBlockList, hl] at hnd ⊢
        exact GoMap.nodup_keys_set (GoMap.set_made es h t) hnd
      · intro hnil
        simp only [GetRequestBlockList] at hnil
        cases hnil
    · refine ⟨_, _, AddRequestedBlock_made n es hl h t₀,
        AddRequestedBlock_made _ (Entries.set es h t₀) rfl h t, ?_⟩
      exact GoMap.get?_set_self (GoMap.set_made (Entries.set es h t₀) h t)
    · apply NodeOp.run_ledger_nodup
      simp [InitLocalNode, GoMap.empty, GoMap.keys, GoMap.entries, Entries.keys]
    · intro m hnil
      exact AddRequestedBlock_nil m hnil h t

/-- Witness for C17 amended: on the local node with hash 5 requested at time 10 and hash 6 at
time 11, requesting 5 again at time 12 leaves the snapshot with 5 at 12 and 6 at 11, one
entry each. -/
theorem AddRequestedBlock_spec_witness :
    ({ toyLocal 0 with RequestedBlockList := GoMap.made [(5, 10), (6, 11)] } :
        node Nat Nat ToyFilter).RequestedBlockList ≠ GoMap.nil ∧
    ({ toyLocal 0 with RequestedBlockList := GoMap.made [(5, 10), (6, 11)] } :
        node Nat Nat ToyFilter).AddRequestedBlock 5 12 =
      some { toyLocal 0 with RequestedBlockList := GoMap.made [(5, 12), (6, 11)] } ∧
    (∃ n', ({ toyLocal 0 with RequestedBlockList := GoMap.made [(5, 10), (6, 11)] } :
        node Nat Nat ToyFilter).AddRequestedBlock 5 12 = some n' ∧
      GoMap.get? n'.GetRequestBlockList 5 = some 12 ∧
      ((6 : Uint256) ≠ 5 → GoMap.get? n'.GetRequestBlockList 6 =
        GoMap.get? ({ toyLocal 0 with RequestedBlockList := GoMap.made [(5, 10), (6, 11)] } :
        node Nat Nat ToyFilter).GetRequestBlockList 6) ∧
      ((GoMap.keys ({ toyLocal 0 with RequestedBlockList := GoMap.made [(5, 10), (6, 11)] } :
        node Nat Nat ToyFilter).GetRequestBlockList).Nodup →
        (GoMap.keys n'.GetRequestBlockList).Nodup) ∧
      n'.GetRequestBlockList ≠ GoMap.nil) :=
  ⟨by decide, by decide,
   (AddRequestedBlock_spec toyCollab
      ({ toyLocal 0 with RequestedBlockList := GoMap.made [(5, 10), (6, 11)] } :
        node Nat Nat ToyFilter)
      5 6 12 0 [] ⟨false, []⟩ 0 0 0 0 0 false (by decide)).1⟩

end node

/-! ## The admission gate -/

namespace Semaphore

theorem acquire_eq_some (s s' : Semaphore) (h : s.acquire = some s') :
    s.held < s.cap ∧ s' = { s with held := s.held + 1 } := by
  unfold acquire at h
  by_cases hlt : s.held < s.cap
  · simp only [hlt, if_true, Option.some.injEq] at h
    exact ⟨hlt, h.symm⟩
  · simp [hlt] at h

theorem release_eq_some (s s' : Semaphore) (h : s.release = some s') :
    0 < s.held ∧ s' = { s with held := s.held - 1 } := by
  unfold release at h
  by_cases hlt : 0 < s.held
  · simp only [hlt, if_true, Option.some.injEq] at h
    exact ⟨hlt, h.symm⟩
  · simp [hlt] at h

/-- A step keeps the capacity, and keeps the permits held within it. -/
theorem step_bound {s s' : Semaphore} (hs : Step s s') (h : s.held ≤ s.cap) :
    s'.cap = s.cap ∧ s'.held ≤ s'.cap := by
  cases hs with
  | acquire ha =>
    obtain ⟨hlt, rfl⟩ := acquire_eq_some s s' ha
    exact ⟨rfl, hlt⟩
  | release hr =>
    obtain ⟨_, rfl⟩ := release_eq_some s s' hr
    exact ⟨rfl, Nat.le_trans (Nat.sub_le _ _) h⟩

theorem reachable_bound {N : Nat} {s : Semaphore} (h : Reachable N s) :
    s.cap = N ∧ s.held ≤ N := by
  induction h with
  | init => exact ⟨rfl, Nat.zero_le _⟩
  | step _ hs ih =>
    have hb := step_bound hs (by rw [ih.1]; exact ih.2)
    exact ⟨hb.1.trans ih.1, by rw [← ih.1, ← hb.1]; exact hb.2⟩

/-- C18. A gate made with capacity `N` admits at most `N` holders: every gate that steps
(an `acquire` that completes, a `release` that completes) reach from `MakeSemaphore N` has
capacity `N` and at most `N` permits held. An `acquire` completes only with fewer than `N`
permits held and adds one; a `release` removes one. With `N` permits held an `acquire` does
not complete, the only step possible is a `release`, and after it an `acquire` completes.
`AcqSyncBlkReqSem` and `RelSyncBlkReqSem` are `acquire` and `release` on the gate of the
node. -/
theorem gate_at_most_N (N : Nat) (s s' : Semaphore) (hr : Reachable N s) :
    s.held ≤ N ∧ s.cap = N ∧
    (s.acquire = some s' → s.held < N ∧ s'.held = s.held + 1) ∧
    (s.release = some s' → s'.held + 1 = s.held) ∧
    (s.held = N → s.acquire = none) ∧
    (s.held = N → Step s s' → s.release = some s' ∧ s'.held + 1 = N) ∧
    (s.held = N → s.release = some s' → (s'.acquire).isSome = true) ∧
    (∀ n : node Unit Unit Unit,
      (n.AcqSyncBlkReqSem).map (fun x => x.SyncBlkReqSem) = n.SyncBlkReqSem.acquire ∧
      (n.RelSyncBlkReqSem).map (fun x => x.SyncBlkReqSem) = n.SyncBlkReqSem.release) := by
  obtain ⟨hcap, hheld⟩ := reachable_bound hr
  have hfull : s.held = N → s.acquire = none := by
    intro hN
    simp [acquire, hN, hcap]
  refine ⟨hheld, hcap, ?_, ?_, hfull, ?_, ?_, ?_⟩
  rotate_right
  · intro n
    refine ⟨?_, ?_⟩
    · simp only [node.AcqSyncBlkReqSem]
      cases n.SyncBlkReqSem.acquire <;> rfl
    · simp only [node.RelSyncBlkReqSem]
      cases n.SyncBlkReqSem.release <;> rfl
  · intro ha
    obtain ⟨hlt, rfl⟩ := acquire_eq_some s s' ha
    exact ⟨by rw [← hcap]; exact hlt, rfl⟩
  · intro hrel
    obtain ⟨hpos, rfl⟩ := release_eq_some s s' hrel
    show s.held - 1 + 1 = s.held
    omega
  · intro hN hstep
    cases hstep with
    | acquire ha => rw [hfull hN] at ha; cases ha
    | release hrel =>
      obtain ⟨hpos, hs'⟩ := release_eq_some s s' hrel
      refine ⟨hrel, ?_⟩
      rw [hs']
      show s.held - 1 + 1 = N
      omega
  · intro hN hrel
    obtain ⟨hpos, rfl⟩ := release_eq_some s s' hrel
    have : s.held - 1 < s.cap := by omega
    simp [acquire, this]

/-- Witness for C18: the gate of capacity 2 after two `acquire` holds 2 permits; a third
`acquire` blocks, and completes after a `release`. -/
theorem gate_at_most_N_witness :
    Reachable 2 ⟨2, 2⟩ ∧
    (⟨2, 2⟩ : Semaphore).acquire = none ∧
    (⟨2, 2⟩ : Semaphore).release = some ⟨2, 1⟩ ∧
    ((⟨2, 1⟩ : Semaphore).acquire).isSome = true :=
  ⟨Reachable.step (Reachable.step Reachable.init (Step.acquire rfl : Step (MakeSemaphore 2) ⟨2, 1⟩))
      (Step.acquire rfl : Step ⟨2, 1⟩ ⟨2, 2⟩),
   (gate_at_most_N 2 ⟨2, 2⟩ ⟨2, 1⟩
      (Reachable.step (Reachable.step Reachable.init (Step.acquire rfl : Step (MakeSemaphore 2) ⟨2, 1⟩))
        (Step.acquire rfl : Step ⟨2, 1⟩ ⟨2, 2⟩))).2.2.2.2.1 rfl,
   rfl,
   (gate_at_most_N 2 ⟨2, 2⟩ ⟨2, 1⟩
      (Reachable.step (Reachable.step Reachable.init (Step.acquire rfl : Step (MakeSemaphore 2) ⟨2, 1⟩))
        (Step.acquire rfl : Step ⟨2, 1⟩ ⟨2, 2⟩))).2.2.2.2.2.2.1 rfl rfl⟩

end Semaphore

/-! ## WaitForSyncFinish -/

namespace node

variable {Tx Blk F L : Type}

/-- The polls at which some neighbour is ahead are passed over by the loop. -/
theorem waitLoop_append (LocalNode : node Tx Blk F) (pre rest : List (Nat × List Nat)) :
    ∀ k : Nat, (∀ o ∈ pre, ∃ h ∈ o.2, o.1 < h) →
      waitLoop LocalNode (pre ++ rest) k = waitLoop LocalNode rest (k + pre.length) := by
  induction pre with
  | nil => intro k _; rfl
  | cons o pre' ih =>
    intro k hpre
    obtain ⟨bh, hs⟩ := o
    have ho : ∃ h ∈ hs, bh < h := hpre (bh, hs) (List.mem_cons_self _ _)
    have hc : ¬ (CompareHeight bh hs > 0) := by
      rw [CompareHeight_eq]; simp [ho]
    have hrest : ∀ o ∈ pre', ∃ h ∈ o.2, o.1 < h :=
      fun o hmem => hpre o (List.mem_cons_of_mem _ hmem)
    rw [List.cons_append]
    simp only [waitLoop, List.length_cons]
    rw [if_neg hc, ih (k + 1) hrest]
    congr 1
    omega

theorem CompareHeight_pos_iff (BlockHeight : Nat) (heights : List Nat) :
    CompareHeight BlockHeight heights > 0 ↔ ∀ h ∈ heights, h ≤ BlockHeight := by
  rw [CompareHeight_eq]
  by_cases hex : ∃ h ∈ heights, BlockHeight < h
  · simp only [hex, if_true]
    obtain ⟨x, hx, hlt⟩ := hex
    constructor
    · intro hf; simp at hf
    · intro hall; exact absurd (hall x hx) (by omega)
  · simp only [hex, if_false]
    constructor
    · intro _ x hx
      by_contra hgt
      exact hex ⟨x, hx, by omega⟩
    · intro _; simp

/-- C19. With a non-empty seed list, over polls of which the first `pre` each see some
neighbour strictly ahead and the next one, `obs`, sees none, `WaitForSyncFinish` returns at
that poll, the poll number `pre.length + 1`, and has not returned within the polls `pre`. On
return the local node is as `SetSyncHeaders(false)` leaves it: the header-sync bit is clear
and every other bit of the flag is as before. `CompareHeight` is never 0, so the exit
condition of a poll holds exactly when `needSync` on the same observation is false. -/
theorem WaitForSyncFinish_spec (LocalNode : node Tx Blk F) (seedListLen : Nat)
    (pre post : List (Nat × List Nat)) (obs : Nat × List Nat)
    (hseed : 0 < seedListLen)
    (hpre : ∀ o ∈ pre, ∃ h ∈ o.2, o.1 < h)
    (hobs : ∀ h ∈ obs.2, h ≤ obs.1) :
    WaitForSyncFinish seedListLen (pre ++ obs :: post) LocalNode =
      some (pre.length + 1, LocalNode.SetSyncHeaders false) ∧
    WaitForSyncFinish seedListLen pre LocalNode = none ∧
    (LocalNode.SetSyncHeaders false).IsSyncHeaders = false ∧
    (∀ i, (LocalNode.SetSyncHeaders false).syncFlag.val.testBit (i + 1) =
      LocalNode.syncFlag.val.testBit (i + 1)) ∧
    (∀ (BlockHeight : Nat) (heights : List Nat),
      CompareHeight BlockHeight heights ≠ 0 ∧
      (CompareHeight BlockHeight heights > 0 ↔ needSync BlockHeight heights = false)) := by
  have hs : ¬ seedListLen ≤ 0 := by omega
  refine ⟨?_, ?_, ?_, ?_, ?_⟩
  · have hc : CompareHeight obs.1 obs.2 > 0 := (CompareHeight_pos_iff obs.1 obs.2).2 hobs
    simp only [WaitForSyncFinish, hs, if_false]
    rw [waitLoop_append LocalNode pre (obs :: post) 0 hpre]
    obtain ⟨bh, hts⟩ := obs
    simp only [waitLoop, hc, if_true, Nat.zero_add]
  · simp only [WaitForSyncFinish, hs, if_false]
    have := waitLoop_append LocalNode pre [] 0 hpre
    rw [List.append_nil] at this
    rw [this]
    rfl
  · rw [IsSyncHeaders_eq_bit0, SetSyncHeaders_bit0]
  · intro i
    rw [Nat.testBit_succ, Nat.testBit_succ, SetSyncHeaders_div]
  · intro BlockHeight heights
    refine ⟨?_, ?_⟩
    · rw [CompareHeight_eq]
      by_cases hex : ∃ h ∈ heights, BlockHeight < h <;> simp [hex]
    · unfold needSync
      rw [CompareHeight_eq]
      by_cases hex : ∃ h ∈ heights, BlockHeight < h <;> simp [hex]

/-- Witness for C19: the first poll sees a neighbour at 150 above the local 100, the second
sees the local height 150 with neighbours at 100 and 150; the call returns at poll 2 with the
flag 3 turned to 2. -/
theorem WaitForSyncFinish_spec_witness :
    WaitForSyncFinish 1 ([(100, [100, 150])] ++ (150, [100, 150]) :: [(150, [200])]) (toyLocal 3) =
      some (2, toyLocal 2) ∧
    WaitForSyncFinish 1 [(100, [100, 150])] (toyLocal 3) = none :=
  ⟨((WaitForSyncFinish_spec (toyLocal 3) 1 [(100, [100, 150])] [(150, [200])] (150, [100, 150])
      (by decide) (by decide) (by decide)).1).trans (by decide),
   (WaitForSyncFinish_spec (toyLocal 3) 1 [(100, [100, 150])] [(150, [200])] (150, [100, 150])
      (by decide) (by decide) (by decide)).2.1⟩

/-! ## The outbound transaction counter -/

theorem fullTxCount_map (g : node Tx Blk F → node Tx Blk F) (l : List (node Tx Blk F)) :
    fullTxCount l (l.map g) =
      l.countP (fun n => ((g n).sent.drop n.sent.length).any WireMsg.isTx) := by
  induction l with
  | nil => rfl
  | cons a rest ih =>
    simp only [fullTxCount] at ih
    simp only [fullTxCount, List.map_cons, List.zip_cons_cons, List.countP_cons, ih]

/-- Whether the switch sends the neighbour a full transaction. -/
theorem relayNbrTarget_fullTx (c : Collab Tx Blk F L) (message : Message Tx Blk)
    (nbr : node Tx Blk F) :
    ((relayNbrTarget c message nbr).sent.drop nbr.sent.length).any WireMsg.isTx =
      (match message with
        | Message.Transaction t =>
          !(c.IsLoaded nbr.filter && (c.MatchTxAndUpdate nbr.filter t).1) && nbr.relay
        | _ => false) := by
  rw [relayNbrTarget_sent, List.drop_left]
  cases message with
  | Transaction t =>
    cases hl : c.IsLoaded nbr.filter <;> cases hm : (c.MatchTxAndUpdate nbr.filter t).1 <;>
      cases hr : nbr.relay <;> simp [WireMsg.isTx, hl, hm, hr]
  | Block b =>
    cases hl : c.IsLoaded nbr.filter <;> cases hr : nbr.relay <;> simp [WireMsg.isTx, hl, hr]
  | Other tag => simp

/-- Whether the loop of `Relay` sends a neighbour a full transaction. -/
theorem relayLoop_fullTx (c : Collab Tx Blk F L) (from' : Option (node Tx Blk F))
    (message : Message Tx Blk) (nbr : node Tx Blk F) :
    (((if notOriginator from' nbr = true then relayNbrTarget c message nbr else nbr).sent.drop
        nbr.sent.length).any WireMsg.isTx) =
      (notOriginator from' nbr &&
        (match message with
          | Message.Transaction t =>
            !(c.IsLoaded nbr.filter && (c.MatchTxAndUpdate nbr.filter t).1) && nbr.relay
          | _ => false)) := by
  by_cases ho : notOriginator from' nbr = true
  · simp only [ho, if_true, Bool.true_and]
    exact relayNbrTarget_fullTx c message nbr
  · simp only [Bool.not_eq_true] at ho
    simp [ho]

/-- The counter after the loop of `Relay`: the counter before plus the number of neighbours
sent a full transaction, in `uint64` arithmetic. -/
theorem relayLoop_txnCnt (c : Collab Tx Blk F L) (from' : Option (node Tx Blk F))
    (message : Message Tx Blk) (nbrs : List (node Tx Blk F)) :
    ∀ self : node Tx Blk F, self.txnCnt < uint64Mod →
      (relayLoop c from' message self nbrs).self.txnCnt =
        (self.txnCnt + fullTxCount nbrs (relayLoop c from' message self nbrs).nbrs) % uint64Mod := by
  simp only [relayLoop_nbrs, fullTxCount_map, relayLoop_fullTx]
  induction nbrs with
  | nil =>
    intro self hlt
    simp only [relayLoop, List.countP_nil, Nat.add_zero]
    exact (Nat.mod_eq_of_lt hlt).symm
  | cons nbr rest ih =>
    intro self hlt
    have hM : 0 < uint64Mod := by simp [uint64Mod]
    by_cases ho : notOriginator from' nbr = true
    · cases message with
      | Transaction t =>
        by_cases hc : (c.IsLoaded nbr.filter && (c.MatchTxAndUpdate nbr.filter t).1) = false ∧
            nbr.relay = true
        · have hih := ih { self with txnCnt := (self.txnCnt + 1) % uint64Mod }
            (Nat.mod_lt _ hM)
          simp only [relayLoop, ho, if_true, relayNbr_tx, if_pos hc]
          rw [hih]
          simp only [List.countP_cons, ho, hc.1, hc.2, Bool.not_false, Bool.and_self, if_true]
          rw [Nat.mod_add_mod]
          congr 1
          omega
        · have hih := ih self hlt
          simp only [relayLoop, ho, if_true, relayNbr_tx, if_neg hc]
          rw [hih]
          have hp : (!(c.IsLoaded nbr.filter && (c.MatchTxAndUpdate nbr.filter t).1) && nbr.relay)
              = false := by
            cases h₁ : (c.IsLoaded nbr.filter && (c.MatchTxAndUpdate nbr.filter t).1) <;>
              cases h₂ : nbr.relay <;> simp_all
          simp only [List.countP_cons, ho, hp, Bool.and_false, Bool.false_eq_true, if_false,
            Nat.add_zero]
      | Block b =>
        have hih := ih self hlt
        simp only [relayLoop, ho, if_true, relayNbr_block]
        rw [hih]
        simp only [List.countP_cons, Bool.and_false, Bool.false_eq_true, if_false, Nat.add_zero]
      | Other tag =>
        simp only [relayLoop, ho, if_true, relayNbr_other, Bool.and_false]
        rw [List.countP_eq_zero.2 (by simp)]
        exact (Nat.mod_eq_of_lt hlt).symm
    · have hih := ih self hlt
      simp only [Bool.not_eq_true] at ho
      simp only [relayLoop, ho, Bool.false_eq_true, if_false]
      rw [hih]
      simp only [List.countP_cons, ho, Bool.false_and, Bool.false_eq_true, if_false, Nat.add_zero]

theorem fullTxCount_self (l : List (node Tx Blk F)) : fullTxCount l l = 0 := by
  have h := fullTxCount_map (fun n : node Tx Blk F => n) l
  simp only [List.map_id'] at h
  rw [h]
  exact List.countP_eq_zero.2 (by simp)

theorem fullTxCount_map_le (g : node Tx Blk F → node Tx Blk F) (l : List (node Tx Blk F)) :
    fullTxCount l (l.map g) ≤ l.length := by
  rw [fullTxCount_map]
  exact List.countP_le_length _

/-- The number of neighbours sent a full transaction by a call of `Relay` that is suppressed,
or whose message is not a transaction, is 0. -/
theorem Relay_fullTxCount_zero (c : Collab Tx Blk F L) (LocalNode self : node Tx Blk F)
    (from' : Option (node Tx Blk F)) (message : Message Tx Blk) (nbrs : List (node Tx Blk F))
    (h : relaySuppressed LocalNode from' = true ∨ ∀ t, message ≠ Message.Transaction t) :
    fullTxCount nbrs (Relay c LocalNode self from' message nbrs).nbrs = 0 := by
  by_cases hs : relaySuppressed LocalNode from' = true
  · simp only [Relay, hs, if_true]
    exact fullTxCount_self nbrs
  · have hm : ∀ t, message ≠ Message.Transaction t := by
      rcases h with h | h
      · exact absurd h hs
      · exact h
    simp only [Relay, hs, Bool.false_eq_true, if_false, relayLoop_nbrs, fullTxCount_map,
      relayLoop_fullTx]
    apply List.countP_eq_zero.2
    intro n _
    cases message with
    | Transaction t => exact absurd rfl (hm t)
    | Block b => simp
    | Other tag => simp

/-- C20, as stated, fails: with the counter at `2 ^ 64 - 1`, a call that returns nil and
sends one neighbour the full transaction leaves the counter at 0, not at the counter before
plus one. -/
theorem txnCnt_plus_count_counterexample :
    (Relay toyCollab { toyLocal 0 with txnCnt := 2 ^ 64 - 1 } { toyLocal 0 with txnCnt := 2 ^ 64 - 1 }
        none (Message.Transaction 7) [toyPeer 2 true ⟨false, []⟩]).err = none ∧
    fullTxCount [toyPeer 2 true ⟨false, []⟩]
      (Relay toyCollab { toyLocal 0 with txnCnt := 2 ^ 64 - 1 } { toyLocal 0 with txnCnt := 2 ^ 64 - 1 }
        none (Message.Transaction 7) [toyPeer 2 true ⟨false, []⟩]).nbrs = 1 ∧
    (Relay toyCollab { toyLocal 0 with txnCnt := 2 ^ 64 - 1 } { toyLocal 0 with txnCnt := 2 ^ 64 - 1 }
        none (Message.Transaction 7) [toyPeer 2 true ⟨false, []⟩]).self.GetTxnCnt = 0 ∧
    (Relay toyCollab { toyLocal 0 with txnCnt := 2 ^ 64 - 1 } { toyLocal 0 with txnCnt := 2 ^ 64 - 1 }
        none (Message.Transaction 7) [toyPeer 2 true ⟨false, []⟩]).self.GetTxnCnt ≠
      ({ toyLocal 0 with txnCnt := 2 ^ 64 - 1 } : node Nat Nat ToyFilter).GetTxnCnt +
        fullTxCount [toyPeer 2 true ⟨false, []⟩]
          (Relay toyCollab { toyLocal 0 with txnCnt := 2 ^ 64 - 1 } { toyLocal 0 with txnCnt := 2 ^ 64 - 1 }
        none (Message.Transaction 7) [toyPeer 2 true ⟨false, []⟩]).nbrs := by
  decide

/-- C20, amended. For every call of `Relay`, so for every one that returns nil, on a receiver
whose counter is a `uint64`, the outbound transaction counter after the call is the counter
before plus the number of neighbours that were sent a full transaction in the call, modulo
`2 ^ 64`; it is exactly that sum whenever the sum is below `2 ^ 64`. The counter is unchanged
when no neighbour was sent a full transaction, which is the case in a suppressed call and for
a message that is not a transaction, whatever inventories or blocks were sent. -/
theorem Relay_txnCnt_accounting (c : Collab Tx Blk F L) (LocalNode self : node Tx Blk F)
    (from' : Option (node Tx Blk F)) (message : Message Tx Blk) (nbrs : List (node Tx Blk F))
    (hcnt : self.GetTxnCnt < 2 ^ 64) :
    (Relay c LocalNode self from' message nbrs).self.GetTxnCnt =
      (self.GetTxnCnt + fullTxCount nbrs (Relay c LocalNode self from' message nbrs).nbrs) % 2 ^ 64 ∧
    (self.GetTxnCnt + fullTxCount nbrs (Relay c LocalNode self from' message nbrs).nbrs < 2 ^ 64 →
      (Relay c LocalNode self from' message nbrs).self.GetTxnCnt = self.GetTxnCnt + fullTxCount nbrs (Relay c LocalNode self from' message nbrs).nbrs) ∧
    (fullTxCount nbrs (Relay c LocalNode self from' message nbrs).nbrs = 0 → (Relay c LocalNode self from' message nbrs).self.GetTxnCnt = self.GetTxnCnt) ∧
    (relaySuppressed LocalNode from' = true → (Relay c LocalNode self from' message nbrs).self.GetTxnCnt = self.GetTxnCnt) ∧
    ((∀ t, message ≠ Message.Transaction t) → (Relay c LocalNode self from' message nbrs).self.GetTxnCnt = self.GetTxnCnt) ∧
    fullTxCount nbrs (Relay c LocalNode self from' message nbrs).nbrs ≤ nbrs.length := by
  simp only [GetTxnCnt] at hcnt ⊢
  have hmain : (Relay c LocalNode self from' message nbrs).self.txnCnt = (self.txnCnt + fullTxCount nbrs (Relay c LocalNode self from' message nbrs).nbrs) % 2 ^ 64 := by
    by_cases hs : relaySuppressed LocalNode from' = true
    · simp only [Relay, hs, if_true, fullTxCount_self, Nat.add_zero]
      exact (Nat.mod_eq_of_lt hcnt).symm
    · simp only [Relay, hs, Bool.false_eq_true, if_false]
      exact relayLoop_txnCnt c from' message nbrs self hcnt
  have hzero : fullTxCount nbrs (Relay c LocalNode self from' message nbrs).nbrs = 0 → (Relay c LocalNode self from' message nbrs).self.txnCnt = self.txnCnt := by
    intro h0
    rw [hmain, h0, Nat.add_zero]
    exact Nat.mod_eq_of_lt hcnt
  refine ⟨hmain, ?_, hzero, ?_, ?_, ?_⟩
  · intro hlt
    rw [hmain]
    exact Nat.mod_eq_of_lt hlt
  · intro hs
    exact hzero (Relay_fullTxCount_zero c LocalNode self from' message nbrs (Or.inl hs))
  · intro hm
    exact hzero (Relay_fullTxCount_zero c LocalNode self from' message nbrs (Or.inr hm))
  · rw [Relay_nbrs]
    exact fullTxCount_map_le _ nbrs

/-- Witness for C20 amended: transaction 7 from peer 1 goes in full to peers 2 and 5, as an
inventory to peer 3 and not at all to peers 1 and 4; the counter goes from 0 to 2. -/
theorem Relay_txnCnt_accounting_witness :
    (toyLocal 0).GetTxnCnt < 2 ^ 64 ∧
    fullTxCount [toyPeer 1 true ⟨false, []⟩, toyPeer 2 true ⟨false, []⟩, toyPeer 3 true ⟨true, [7]⟩,
        toyPeer 4 false ⟨false, []⟩, toyPeer 5 true ⟨true, [9]⟩]
      (Relay toyCollab (toyLocal 0) (toyLocal 0) (some (toyPeer 1 true ⟨false, []⟩))
        (Message.Transaction 7)
        [toyPeer 1 true ⟨false, []⟩, toyPeer 2 true ⟨false, []⟩, toyPeer 3 true ⟨true, [7]⟩,
        toyPeer 4 false ⟨false, []⟩, toyPeer 5 true ⟨true, [9]⟩]).nbrs = 2 ∧
    (Relay toyCollab (toyLocal 0) (toyLocal 0) (some (toyPeer 1 true ⟨false, []⟩))
        (Message.Transaction 7)
        [toyPeer 1 true ⟨false, []⟩, toyPeer 2 true ⟨false, []⟩, toyPeer 3 true ⟨true, [7]⟩,
        toyPeer 4 false ⟨false, []⟩, toyPeer 5 true ⟨true, [9]⟩]).self.GetTxnCnt = 2 :=
  ⟨by decide, by decide,
   ((Relay_txnCnt_accounting toyCollab (toyLocal 0) (toyLocal 0) (some (toyPeer 1 true ⟨false, []⟩))
      (Message.Transaction 7)
      [toyPeer 1 true ⟨false, []⟩, toyPeer 2 true ⟨false, []⟩, toyPeer 3 true ⟨true, [7]⟩,
        toyPeer 4 false ⟨false, []⟩, toyPeer 5 true ⟨true, [9]⟩]
      (by decide)).1).trans (by decide)⟩

end node

end Node
